import Mathlib

/-!
Verification development for the cash-forecast application's computation core:
the federal withholding calculator, the payroll engine, the transaction
generator and the forecast simulator.

Modelling conventions, used throughout:
* JavaScript numbers are modelled as rationals (`ℚ`); the code performs only
  field arithmetic, `min`/`max`, `abs` and rounding-to-cents, all exact here.
* JavaScript strings are modelled as `List Char` (`Str` below); the empty list
  models both the empty string and an absent optional string, matching their
  shared falsiness in the source. String literals are injected via `strOf`.
* Calendar dates are modelled as year/month/day triples (`Ymd`).  The source
  stores dates as canonical "YYYY-MM-DD" strings; comparisons on such strings
  (`localeCompare`, `<=`, `startsWith`) coincide with lexicographic comparison
  of the (year, month, day) triples, which is how they are modelled.
* `crypto.randomUUID()` results are not modelled: the generated `id` fields are
  omitted from the transaction model (no computation ever reads them), and the
  batch id and `Date.now()` timestamps are passed in as explicit parameters.
* `Array.prototype.sort` (stable, with a total-preorder comparator) is
  modelled by `List.mergeSort` with the boolean relation "comparator ≤ 0".
-/

/-! ### Characters and strings -/

/-- JavaScript strings are modelled as lists of characters. -/
abbrev Str := List Char

/-- Converts a Lean string literal to the `Str` model. -/
def strOf (s : String) : Str := s.data

/-- Character for one decimal digit (0..9); the digit map underlying the
JavaScript number-to-string conversion used by template literals. -/
def digitChar (d : Nat) : Char :=
  if d = 0 then '0' else if d = 1 then '1' else if d = 2 then '2'
  else if d = 3 then '3' else if d = 4 then '4' else if d = 5 then '5'
  else if d = 6 then '6' else if d = 7 then '7' else if d = 8 then '8'
  else '9'

/-- Structural worker for `natDigits`; the fuel only bounds the recursion
depth (one unit per digit) and never runs out when it starts at `n`. -/
def natDigitsGo (fuel n : Nat) : Str :=
  match fuel with
  | 0 => [digitChar n]
  | fuel + 1 =>
      if n < 10 then [digitChar n]
      else natDigitsGo fuel (n / 10) ++ [digitChar (n % 10)]

/-- Digit list of a natural number, most significant digit first; this models
the JavaScript number-to-string conversion used by template literals. -/
def natDigits (n : Nat) : Str := natDigitsGo n n

/-- Models the `padStart(2, '0')` formatting of a day or month number. -/
def pad2 (n : Nat) : Str :=
  if n < 10 then '0' :: natDigits n else natDigits n

/-- Digit characters are never a colon. -/
theorem digitChar_ne_colon (d : Nat) : digitChar d ≠ ':' := by
  unfold digitChar
  repeat' split
  all_goals decide

/-- Every character produced by `natDigitsGo` is a decimal digit. -/
theorem natDigitsGo_no_colon : ∀ fuel n, ':' ∉ natDigitsGo fuel n := by
  intro fuel
  induction fuel with
  | zero =>
    intro n hc
    exact digitChar_ne_colon n (List.mem_singleton.1 hc).symm
  | succ fuel ih =>
    intro n
    unfold natDigitsGo
    by_cases h : n < 10
    · simp only [h, if_true, List.mem_singleton]
      exact fun hc => digitChar_ne_colon n hc.symm
    · simp only [h, if_false, List.mem_append, List.mem_singleton]
      rintro (hmem | heq)
      · exact ih (n / 10) hmem
      · exact digitChar_ne_colon (n % 10) heq.symm

/-- Every character produced by `natDigits` is a decimal digit, hence never a
colon; this is what makes the generated composite keys parseable. -/
theorem natDigits_no_colon (n : Nat) : ':' ∉ natDigits n :=
  natDigitsGo_no_colon n n

/-- Padded two-digit strings contain no colon either. -/
theorem pad2_no_colon (n : Nat) : ':' ∉ pad2 n := by
  unfold pad2
  by_cases h : n < 10 <;> simp only [h, if_true, if_false, List.mem_cons]
  · rintro (hc | hc)
    · exact absurd hc.symm (by decide)
    · exact natDigits_no_colon n hc
  · exact natDigits_no_colon n

/-! ### Federal withholding calculator

Source: `src/lib/payroll/federal/withholding.ts`. -/

/-- Filing status, from `src/lib/payroll/types.ts`. -/
inductive FilingStatus where
  | single
  | married_joint
  | head_of_household
deriving DecidableEq, Repr

/-- One federal income tax bracket; `upperBound = none` models the JSON `null`
(unbounded top bracket, treated as `Infinity` by the code). -/
structure TaxBracket where
  lowerBound : ℚ
  upperBound : Option ℚ
  rate : ℚ
deriving DecidableEq, Repr

/-- Amount of `taxableIncome` that falls inside bracket `b`:
`Math.max(0, Math.min(taxableIncome, upper) - bracket.lowerBound)` where
`upper = bracket.upperBound ?? Infinity` (so `min income Infinity = income`). -/
def taxableAtBracket (taxableIncome : ℚ) (b : TaxBracket) : ℚ :=
  max 0 ((match b.upperBound with
    | some u => min taxableIncome u
    | none => taxableIncome) - b.lowerBound)

/-- Progressive annual tax over an ordered bracket list; a direct model of
`calculateAnnualTax` in `withholding.ts` (a `reduce` that skips brackets whose
taxable portion is not positive). -/
def calculateAnnualTax (taxableIncome : ℚ) (brackets : List TaxBracket) : ℚ :=
  if taxableIncome ≤ 0 then 0
  else brackets.foldl (fun sum b =>
    let t := taxableAtBracket taxableIncome b
    if t ≤ 0 then sum else sum + t * b.rate) 0

/-- Per-paycheck federal withholding: annualize, deduct, bracket-tax, apply
dependent credits, de-annualize and add the flat extra amount; a direct model
of `calculateFederalWithholding` in `withholding.ts`. -/
def calculateFederalWithholding
    (taxableWagesPerPaycheck payPeriodsPerYear : ℚ)
    (standardDeduction deductionsAnnual otherIncomeAnnual : ℚ)
    (brackets : List TaxBracket)
    (dependentCredit : ℚ) (dependentsCount : ℚ)
    (dependentCreditOverride : Option ℚ)
    (extraWithholdingPerPaycheck : ℚ) : ℚ :=
  let annualizedWages := taxableWagesPerPaycheck * payPeriodsPerYear
  let adjustedIncome := annualizedWages + otherIncomeAnnual
  let totalDeductions := standardDeduction + deductionsAnnual
  let taxableIncome := max 0 (adjustedIncome - totalDeductions)
  let annualTax := calculateAnnualTax taxableIncome brackets
  let credit := dependentCreditOverride.getD (dependentsCount * dependentCredit)
  let annualAfterCredits := max 0 (annualTax - credit)
  let perPaycheck := annualAfterCredits / payPeriodsPerYear
  max 0 (perPaycheck + extraWithholdingPerPaycheck)

/-- Folding the bracket accumulator from an arbitrary start equals the start
plus the sum of the per-bracket taxes (skipped brackets contribute zero). -/
theorem calculateAnnualTax_foldl (income : ℚ) (brackets : List TaxBracket) :
    ∀ s : ℚ, brackets.foldl (fun sum b =>
        let t := taxableAtBracket income b
        if t ≤ 0 then sum else sum + t * b.rate) s
      = s + (brackets.map (fun b => taxableAtBracket income b * b.rate)).sum := by
  induction brackets with
  | nil => intro s; simp
  | cons b bs ih =>
    intro s
    simp only [List.foldl_cons, List.map_cons, List.sum_cons]
    rw [ih]
    by_cases ht : taxableAtBracket income b ≤ 0
    · have hz : taxableAtBracket income b = 0 :=
        le_antisymm ht (le_max_left 0 _)
      simp [ht, hz]
    · simp [ht]; ring

/-- For a nonpositive income and nonnegative lower bounds, every bracket's
taxable portion is zero. -/
theorem taxableAtBracket_of_nonpos {income : ℚ} (b : TaxBracket)
    (hinc : income ≤ 0) (hlb : 0 ≤ b.lowerBound) :
    taxableAtBracket income b = 0 := by
  unfold taxableAtBracket
  cases hu : b.upperBound with
  | none =>
    simp only [max_eq_left_iff, sub_nonpos]
    exact le_trans hinc hlb
  | some u =>
    simp only [max_eq_left_iff, sub_nonpos]
    exact le_trans (min_le_left _ _) (le_trans hinc hlb)

/-- Counterexample to claim C1 as stated: on the spec's example brackets
[(0,10000,0.10),(10000,null,0.20)] with taxable income 15000 the code computes
10000 × 0.10 + 5000 × 0.20 = 2000, not the 1500 the claim asserts (the claim's
own marginal-bracket formula also yields 2000; 1500 is an arithmetic slip in
the spec). -/
theorem calculateAnnualTax_example_ne_1500 :
    calculateAnnualTax 15000
        [⟨0, some 10000, 1/10⟩, ⟨10000, none, 2/10⟩] = 2000
    ∧ (2000 : ℚ) ≠ 1500 := by
  constructor
  · unfold calculateAnnualTax taxableAtBracket
    norm_num
  · norm_num

/-- Claim C1, amended — `calculateAnnualTax` implements progressive
marginal-bracket taxation: for every bracket list with nonnegative lower
bounds (spec: ordered, contiguous, starting at 0) and every taxable income,
the result is the sum over brackets of (portion of income between the
bracket's lowerBound and min(upperBound-or-infinity, income)) × rate; and on
the spec's example brackets [(0,10000,0.10),(10000,null,0.20)] with income
15000 the tax is 10000 × 0.10 + 5000 × 0.20 = 2000 (not the claim's 1500, an
arithmetic slip), and in particular never the single-rate
15000 × 0.20 = 3000. -/
theorem calculateAnnualTax_progressive (income : ℚ) (brackets : List TaxBracket)
    (hlb : ∀ b ∈ brackets, 0 ≤ b.lowerBound) :
    calculateAnnualTax income brackets
      = (brackets.map (fun b => taxableAtBracket income b * b.rate)).sum
    ∧ calculateAnnualTax 15000
        [⟨0, some 10000, 1/10⟩, ⟨10000, none, 2/10⟩]
        = 10000 * (1/10) + 5000 * (2/10)
    ∧ calculateAnnualTax 15000
        [⟨0, some 10000, 1/10⟩, ⟨10000, none, 2/10⟩] ≠ 15000 * (2/10) := by
  refine ⟨?_, ?_, ?_⟩
  · unfold calculateAnnualTax
    by_cases hinc : income ≤ 0
    · simp only [hinc, if_true]
      have : ∀ b ∈ brackets, taxableAtBracket income b * b.rate = 0 := by
        intro b hb
        rw [taxableAtBracket_of_nonpos b hinc (hlb b hb), zero_mul]
      rw [List.map_congr_left this]
      simp
    · simp only [hinc, if_false]
      rw [calculateAnnualTax_foldl, zero_add]
  · unfold calculateAnnualTax taxableAtBracket
    norm_num
  · unfold calculateAnnualTax taxableAtBracket
    norm_num

/-- Witness for C1: the progressive-tax characterization applied to the spec's
example bracket list and income 15000. -/
theorem calculateAnnualTax_progressive_witness :
    (∀ b ∈ [(⟨0, some 10000, 1/10⟩ : TaxBracket), ⟨10000, none, 2/10⟩],
        0 ≤ b.lowerBound)
    ∧ calculateAnnualTax 15000
        [⟨0, some 10000, 1/10⟩, ⟨10000, none, 2/10⟩]
        = 10000 * (1/10) + 5000 * (2/10) :=
  ⟨by intro b hb; fin_cases hb <;> norm_num,
   (calculateAnnualTax_progressive 15000
      [⟨0, some 10000, 1/10⟩, ⟨10000, none, 2/10⟩]
      (by intro b hb; fin_cases hb <;> norm_num)).2.1⟩

/-! ### Calendar dates

Dates are year/month/day triples. `mkDate` models the day-overflow
normalization performed by the JavaScript `Date` constructor
(`new Date(year, month0, day)` with `day` exceeding the month length rolls
into following months), which is how both copies of the schedule utilities
(`src/lib/storage.ts` and the payroll engine) step dates by an interval.
Comparisons between `Date` values (timestamps) are modelled by comparing
`dayNo`, the day count since year 0; comparisons between canonical
"YYYY-MM-DD" strings are modelled by lexicographic comparison of triples. -/

/-- Calendar date (month 1..12, day 1..31 when valid). -/
structure Ymd where
  y : Nat
  m : Nat
  d : Nat
deriving DecidableEq, Repr

/-- Month identifier, modelling a canonical "YYYY-MM" string. -/
structure MonthId where
  y : Nat
  m : Nat
deriving DecidableEq, Repr

/-- Gregorian leap-year rule, as implemented by the JavaScript `Date`. -/
def isLeapYear (y : Nat) : Bool :=
  y % 4 = 0 && (y % 100 ≠ 0 || y % 400 = 0)

/-- Days in a month; models `new Date(year, month, 0).getDate()`. The
out-of-range default keeps the function total (callers only pass 1..12). -/
def daysInMonth (y m : Nat) : Nat :=
  if m = 1 then 31
  else if m = 2 then (if isLeapYear y then 29 else 28)
  else if m = 3 then 31
  else if m = 4 then 30
  else if m = 5 then 31
  else if m = 6 then 30
  else if m = 7 then 31
  else if m = 8 then 31
  else if m = 9 then 30
  else if m = 10 then 31
  else if m = 11 then 30
  else 31

/-- Every month has at least 28 days. -/
theorem daysInMonth_ge (y m : Nat) : 28 ≤ daysInMonth y m := by
  unfold daysInMonth
  repeat' split
  all_goals omega

/-- December always has 31 days. -/
theorem daysInMonth_twelve (y : Nat) : daysInMonth y 12 = 31 := by
  unfold daysInMonth
  norm_num

/-- Structural worker for `mkDate`; each roll-over consumes one unit of fuel
while shrinking the day by at least 28, so fuel starting at the day never runs
out. -/
def mkDateGo : Nat → Nat → Nat → Nat → Ymd
  | 0, y, m, d => ⟨y, m, d⟩
  | fuel + 1, y, m, d =>
      if d ≤ daysInMonth y m then ⟨y, m, d⟩
      else if m = 12 then mkDateGo fuel (y + 1) 1 (d - 31)
      else mkDateGo fuel y (m + 1) (d - daysInMonth y m)

/-- Day-overflow normalization of the JavaScript `Date` constructor: roll an
oversized day-of-month into the following months (and years). -/
def mkDate (y m d : Nat) : Ymd := mkDateGo d y m d

/-- Month normalization of the JavaScript `Date` constructor (months beyond
December roll into later years). The `m = 0` input never occurs in this
development (all call sites pass months parsed from 1-based date strings) and
is clamped to January. -/
def monthNorm (y m : Nat) : Nat × Nat :=
  if m = 0 then (y, 1)
  else (y + (m - 1) / 12, (m - 1) % 12 + 1)

/-- Full normalization of `new Date(year, month - 1, day)` as used by the
`parseDate` helpers: months first, then day overflow. A `day = 0` input never
occurs here and is clamped to 1. -/
def mkDateFull (y m d : Nat) : Ymd :=
  mkDate (monthNorm y m).1 (monthNorm y m).2 (if d = 0 then 1 else d)

/-- Models the `parseDate` helpers of `storage.ts` and the payroll engine:
split a "YYYY-MM-DD" string (here: the triple) and normalize through the
`Date` constructor. -/
def parseDate (t : Ymd) : Ymd := mkDateFull t.y t.m t.d

/-- A triple is a valid calendar date when the month is 1..12 and the day fits
in the month. -/
def YmdValid (t : Ymd) : Prop :=
  1 ≤ t.m ∧ t.m ≤ 12 ∧ 1 ≤ t.d ∧ t.d ≤ daysInMonth t.y t.m

instance (t : Ymd) : Decidable (YmdValid t) := by
  unfold YmdValid; infer_instance

/-- Days elapsed before January 1 of year `y`, counting from year 0. -/
def daysBeforeYear : Nat → Nat
  | 0 => 0
  | y + 1 => daysBeforeYear y + (if isLeapYear y then 366 else 365)

/-- Days in months 1..m of year `y`. -/
def monthsDays (y : Nat) : Nat → Nat
  | 0 => 0
  | m + 1 => monthsDays y m + daysInMonth y (m + 1)

/-- Absolute day number (rata die) of a date triple. -/
def dayNo (t : Ymd) : Nat :=
  daysBeforeYear t.y + monthsDays t.y (t.m - 1) + t.d

/-- The twelve months of a year sum to its length. -/
theorem monthsDays_year (y : Nat) :
    monthsDays y 12 = if isLeapYear y then 366 else 365 := by
  cases h : isLeapYear y <;>
    simp [monthsDays, daysInMonth, h]

/-- Validity of the fuel-based normalization worker. -/
theorem mkDateGo_valid :
    ∀ fuel y m d, d ≤ fuel → 1 ≤ m → m ≤ 12 → 1 ≤ d →
      YmdValid (mkDateGo fuel y m d) := by
  intro fuel
  induction fuel with
  | zero => intro y m d hf _ _ hd; omega
  | succ fuel ih =>
    intro y m d hf hm1 hm2 hd
    unfold mkDateGo
    split
    · exact ⟨hm1, hm2, hd, by assumption⟩
    · rename_i hgt
      split
      · rename_i h12
        subst h12
        have h31 := daysInMonth_twelve y
        exact ih (y + 1) 1 (d - 31) (by omega) (by omega) (by omega) (by omega)
      · rename_i hne
        have hge := daysInMonth_ge y m
        exact ih y (m + 1) (d - daysInMonth y m)
          (by omega) (by omega) (by omega) (by omega)

/-- Normalization preserves validity (for in-range months and positive days). -/
theorem mkDate_valid :
    ∀ d y m, 1 ≤ m → m ≤ 12 → 1 ≤ d → YmdValid (mkDate y m d) :=
  fun d y m hm1 hm2 hd => mkDateGo_valid d y m d le_rfl hm1 hm2 hd

/-- Rata-die value of the fuel-based normalization worker. -/
theorem dayNo_mkDateGo :
    ∀ fuel y m d, d ≤ fuel → 1 ≤ m → m ≤ 12 → 1 ≤ d →
      dayNo (mkDateGo fuel y m d)
        = daysBeforeYear y + monthsDays y (m - 1) + d := by
  intro fuel
  induction fuel with
  | zero => intro y m d hf _ _ hd; omega
  | succ fuel ih =>
    intro y m d hf hm1 hm2 hd
    unfold mkDateGo
    split
    · rfl
    · rename_i hgt
      split
      · rename_i h12
        subst h12
        have h31 := daysInMonth_twelve y
        rw [ih (y + 1) 1 (d - 31) (by omega) (by omega) (by omega) (by omega)]
        have hyd : monthsDays y 12 = monthsDays y 11 + daysInMonth y 12 := rfl
        have hby : daysBeforeYear (y + 1)
            = daysBeforeYear y + monthsDays y 12 := by
          rw [monthsDays_year]
          rfl
        have hz : monthsDays (y + 1) (1 - 1) = 0 := rfl
        rw [hz]
        norm_num
        omega
      · rename_i hne
        have hge := daysInMonth_ge y m
        rw [ih y (m + 1) (d - daysInMonth y m)
          (by omega) (by omega) (by omega) (by omega)]
        have hstep : monthsDays y m = monthsDays y (m - 1) + daysInMonth y m := by
          have hm : m = (m - 1) + 1 := by omega
          rw [hm]
          simp only [monthsDays, Nat.add_sub_cancel]
        simp only [Nat.add_sub_cancel]
        omega

/-- Normalization preserves the rata-die value computed from raw components. -/
theorem dayNo_mkDate :
    ∀ d y m, 1 ≤ m → m ≤ 12 → 1 ≤ d →
      dayNo (mkDate y m d) = daysBeforeYear y + monthsDays y (m - 1) + d :=
  fun d y m hm1 hm2 hd => dayNo_mkDateGo d y m d le_rfl hm1 hm2 hd

/-- Parsed dates are always valid calendar dates, whatever the raw input. -/
theorem parseDate_valid (t : Ymd) : YmdValid (parseDate t) := by
  unfold parseDate mkDateFull monthNorm
  split
  · exact mkDate_valid _ _ _ (by omega) (by omega) (by split <;> omega)
  · refine mkDate_valid _ _ _ (by omega) ?_ (by split <;> omega)
    have h := Nat.mod_lt (t.m - 1) (show 0 < 12 by omega)
    omega

/-- Interval stepping of the schedule loops:
`new Date(cur.getFullYear(), cur.getMonth(), cur.getDate() + intervalDays)`. -/
def addDaysJS (t : Ymd) (k : Nat) : Ymd := mkDate t.y t.m (t.d + k)

/-- Stepping a valid date stays valid. -/
theorem addDaysJS_valid {t : Ymd} (ht : YmdValid t) (k : Nat) :
    YmdValid (addDaysJS t k) := by
  obtain ⟨h1, h2, h3, _⟩ := ht
  exact mkDate_valid (t.d + k) t.y t.m h1 h2 (by omega)

/-- Stepping a valid date advances the rata-die count by exactly the step. -/
theorem dayNo_addDaysJS {t : Ymd} (ht : YmdValid t) (k : Nat) :
    dayNo (addDaysJS t k) = dayNo t + k := by
  obtain ⟨h1, h2, h3, _⟩ := ht
  unfold addDaysJS
  rw [dayNo_mkDate (t.d + k) t.y t.m h1 h2 (by omega)]
  unfold dayNo
  omega

/-- Valid dates, the loop state of the interval-based schedule loops. -/
def VYmd := {t : Ymd // YmdValid t}

/-- First loop of `getDatesByInterval`: advance from the anchor by whole
intervals while still before the first day of the month
(`while current < start`, comparing `Date` timestamps). -/
def advanceToStart (startN k : Nat) (hk : 0 < k) (cur : VYmd) : VYmd :=
  if dayNo cur.1 < startN then
    advanceToStart startN k hk ⟨addDaysJS cur.1 k, addDaysJS_valid cur.2 k⟩
  else cur
termination_by startN - dayNo cur.1
decreasing_by
  rename_i h
  rw [dayNo_addDaysJS cur.2 k]
  omega

/-- Second loop of `getDatesByInterval`: collect dates while not past the last
day of the month (`while current <= end`), keeping those at or after the first
day (`if current >= start`). -/
def collectDates (startN endN k : Nat) (hk : 0 < k) (cur : VYmd) : List Ymd :=
  if dayNo cur.1 ≤ endN then
    (if startN ≤ dayNo cur.1 then [cur.1] else [])
      ++ collectDates startN endN k hk ⟨addDaysJS cur.1 k, addDaysJS_valid cur.2 k⟩
  else []
termination_by endN + 1 - dayNo cur.1
decreasing_by
  rename_i h
  rw [dayNo_addDaysJS cur.2 k]
  omega

/-- Models `getDatesByInterval` (identical in `storage.ts` and the payroll
engine): walk from the anchor date in steps of `k` days and collect the dates
landing inside the month `mId`. -/
def getDatesByInterval (mId : MonthId) (anchor : Ymd) (k : Nat) (hk : 0 < k) :
    List Ymd :=
  let s := dayNo ⟨mId.y, mId.m, 1⟩
  let e := dayNo ⟨mId.y, mId.m, daysInMonth mId.y mId.m⟩
  collectDates s e k hk
    (advanceToStart s k hk ⟨parseDate anchor, parseDate_valid anchor⟩)

/-- Formats a date triple as its canonical "YYYY-MM-DD" string, modelling the
`formatDate` helpers (template literal with 2-padded month and day). -/
def fmtYmd (t : Ymd) : Str :=
  natDigits t.y ++ '-' :: (pad2 t.m ++ '-' :: pad2 t.d)

/-- Canonical date strings never contain a colon. -/
theorem fmtYmd_no_colon (t : Ymd) : ':' ∉ fmtYmd t := by
  unfold fmtYmd
  intro h
  rcases List.mem_append.1 h with h1 | h1
  · exact natDigits_no_colon t.y h1
  · rcases List.mem_cons.1 h1 with h2 | h2
    · exact absurd h2.symm (by decide)
    · rcases List.mem_append.1 h2 with h3 | h3
      · exact pad2_no_colon t.m h3
      · rcases List.mem_cons.1 h3 with h4 | h4
        · exact absurd h4.symm (by decide)
        · exact pad2_no_colon t.d h4

/-- Lexicographic (chronological) strict order on date triples; models
`localeCompare` on canonical "YYYY-MM-DD" strings reporting "less". -/
def ymdLt (a b : Ymd) : Prop :=
  a.y < b.y ∨ (a.y = b.y ∧ (a.m < b.m ∨ (a.m = b.m ∧ a.d < b.d)))

instance (a b : Ymd) : Decidable (ymdLt a b) := by
  unfold ymdLt; infer_instance

/-- Order between a date's year-month prefix and a month id; models
`date.slice(0, 7) <= monthId` on canonical strings. -/
def ymLe (a : Ymd) (mId : MonthId) : Prop :=
  a.y < mId.y ∨ (a.y = mId.y ∧ a.m ≤ mId.m)

instance (a : Ymd) (mId : MonthId) : Decidable (ymLe a mId) := by
  unfold ymLe; infer_instance

/-! ### Transaction generator: data model

Source: `src/types.ts` and `src/lib/storage.ts`. Transaction `id` fields
(`crypto.randomUUID()`) are omitted: no computation reads them, and every
claim about generation is stated up to ids/timestamps. -/

/-- Origin of a transaction (`source?: 'generated' | 'manual'`). -/
inductive TxSource where
  | generated
  | manual
deriving DecidableEq, Repr

/-- Income/expense/transfer classification shared by categories, recurring
items and one-off adjustments. -/
inductive ItemType where
  | income
  | expense
  | transfer
deriving DecidableEq, Repr

/-- Recurrence cadence; the paycheck schedule uses the same four values. -/
inductive Cadence where
  | monthly
  | weekly
  | biweekly
  | semimonthly
deriving DecidableEq, Repr

/-- Generation mode of `generateMonthTransactions`. -/
inductive GenerateMode where
  | missing
  | regenerate
  | reset
deriving DecidableEq, Repr

/-- A cash transaction (`Transaction` in `types.ts`, without the unread
random `id`). The empty string models an absent optional string. -/
structure Transaction where
  date : Str
  amount : ℚ
  account_id : Str
  transfer_account_id : Option Str := none
  transaction_type : Option ItemType := none
  category_id : Str
  description : Str
  loan_id : Option Str := none
  created_at : Int
  updated_at : Int
  source : Option TxSource := none
  source_item_id : Str := []
  generated_batch_id : Option Str := none
deriving DecidableEq, Repr

/-- A resolved or overridden paycheck entry (`PaycheckEntry`, without `id`). -/
structure PaycheckEntry where
  date : Str
  amount : ℚ
  is_bonus : Option Bool := none
  description : Option Str := none
deriving DecidableEq, Repr

/-- One deposit split destination (`PaycheckDepositSplit`). -/
structure PaycheckDepositSplit where
  id : Str
  account_id : Str
  amount : ℚ
  is_remainder : Option Bool := none
deriving DecidableEq, Repr

/-- Per-month amount override for one recurring item (`VariableOverride`). -/
structure VariableOverride where
  item_id : Str
  amount : ℚ
deriving DecidableEq, Repr

/-- An ad hoc adjustment (`OneOffAdjustment`). -/
structure OneOffAdjustment where
  id : Str
  date : Str
  description : Str
  amount : ℚ
  account_id : Str
  transfer_account_id : Option Str := none
  category_id : Str
  loan_id : Option Str := none
  type : ItemType
deriving DecidableEq, Repr

/-- A recurring income/expense/transfer rule (`RecurringItem`); the anchor
date string is carried as a raw year/month/day triple. -/
structure RecurringItem where
  id : Str
  name : Str
  category_id : Str
  account_id : Str
  transfer_account_id : Option Str := none
  loan_id : Option Str := none
  cadence : Cadence
  default_amount : ℚ
  day_rule : Str
  type : ItemType
  enabled : Bool
  anchor_date : Option Ymd := none
deriving DecidableEq, Repr

/-- Month configuration (`MonthSetup`). -/
structure MonthSetup where
  paycheck_schedule : Cadence
  paycheck_anchor_date : Ymd
  paycheck_deposit_splits : List PaycheckDepositSplit
  paycheck_category_id : Str
  paycheck_default_amount : ℚ
  paycheck_estimates : Option (List PaycheckEntry) := none
  paycheck_overrides : List PaycheckEntry
  variable_overrides : List VariableOverride
  one_offs : List OneOffAdjustment
  last_generated_at : Int
  generation_version : Int
deriving DecidableEq, Repr

/-! ### Transaction generator: schedule dates

Source: `src/lib/storage.ts` lines 238..303. -/

/-- Formats a month id as its canonical "YYYY-MM" string. -/
def fmtMonthId (mId : MonthId) : Str := natDigits mId.y ++ '-' :: pad2 mId.m

/-- Boolean prefix test, modelling `String.prototype.startsWith`. -/
def strStartsWith (s p : Str) : Bool := p.isPrefixOf s

/-- Numeric value of a list of decimal digit characters. -/
def digitsToNat (l : Str) : Nat :=
  l.foldl (fun acc c => acc * 10 + (c.toNat - 48)) 0

/-- Value of the longest leading digit run, if nonempty. -/
def leadingDigitsVal (l : Str) : Option Nat :=
  let ds := l.takeWhile Char.isDigit
  if ds = [] then none else some (digitsToNat ds)

/-- Models `parseInt(s, 10)`: skip leading spaces, accept an optional sign,
then read leading digits; `none` models `NaN` (so that
`Number.isFinite(dayNum)` becomes an `Option` match). -/
def jsParseInt (s : Str) : Option Int :=
  match s.dropWhile (fun c => c = ' ') with
  | '-' :: rest => (leadingDigitsVal rest).map (fun n => -(n : Int))
  | '+' :: rest => (leadingDigitsVal rest).map (fun n => (n : Int))
  | rest => (leadingDigitsVal rest).map (fun n => (n : Int))

/-- Models `getMonthlyDate` of `storage.ts`: "last" means the final calendar
day; otherwise parse the day rule (accepting a "day:" prefix), fall back to
`fallbackDay` when unparseable, and clamp into [1, daysInMonth]. -/
def getMonthlyDate (mId : MonthId) (dayRule : Str) (fallbackDay : Int) : Str :=
  if dayRule = strOf "last" then
    fmtMonthId mId ++ '-' :: pad2 (daysInMonth mId.y mId.m)
  else
    let raw := if strStartsWith dayRule (strOf "day:") then dayRule.drop 4
      else dayRule
    let day : Int := match jsParseInt raw with
      | some n => n
      | none => fallbackDay
    let clamped : Int := min (max day 1) (daysInMonth mId.y mId.m : Int)
    fmtMonthId mId ++ '-' :: pad2 clamped.toNat

/-- Models `getScheduleDates` of `storage.ts`: the paycheck dates of a month
for a schedule anchored at `anchorDate`. -/
def getScheduleDates (mId : MonthId) (schedule : Cadence) (anchorDate : Ymd) :
    List Str :=
  match schedule with
  | .weekly => (getDatesByInterval mId anchorDate 7 (by omega)).map fmtYmd
  | .biweekly => (getDatesByInterval mId anchorDate 14 (by omega)).map fmtYmd
  | .semimonthly =>
      [fmtMonthId mId ++ '-' :: pad2 15,
       fmtMonthId mId ++ '-' :: pad2 (daysInMonth mId.y mId.m)]
  | .monthly =>
      let anchorDay := (parseDate anchorDate).d
      [getMonthlyDate mId (natDigits anchorDay) 1]

/-! ### Transaction generator: generation

Source: `src/lib/storage.ts` lines 305..490. -/

/-- Signs a magnitude by item type (`resolveAmount`): income is positive,
everything else (expense, transfer) negative. -/
def resolveAmount (t : ItemType) (amount : ℚ) : ℚ :=
  if t = ItemType.income then |amount| else -|amount|

/-- Rounds to the nearest cent (`Math.round(value * 100) / 100`; `round` here
is floor(x + 1/2), exactly JavaScript's `Math.round`). -/
def roundToCents (v : ℚ) : ℚ := (round (v * 100) : ℤ) / 100

/-- JavaScript `a || b` for strings: `b` when `a` is empty. -/
def jsOrStr (a b : Str) : Str := if a = [] then b else a

/-- Truthiness of an optional boolean flag. -/
def optTrue (b : Option Bool) : Bool := b.getD false

/-- Composite `source_item_id` of a deposit-split transaction:
`(bonus|paycheck):<date>:<account_id>`. -/
def paycheckKey (bonus : Bool) (date acct : Str) : Str :=
  (if bonus then strOf "bonus" else strOf "paycheck") ++ ':' :: (date ++ ':' :: acct)

/-- Composite `source_item_id` of a recurring transaction:
`recurring:<item_id>:<date>`. -/
def recurringKey (itemId date : Str) : Str :=
  strOf "recurring" ++ ':' :: (itemId ++ ':' :: date)

/-- Composite `source_item_id` of a one-off transaction: `oneoff:<id>`. -/
def oneOffKey (adjId : Str) : Str := strOf "oneoff" ++ ':' :: adjId

/-- Splits with a nonempty destination account (`eligibleSplits`). -/
def eligibleSplitsOf (splits : List PaycheckDepositSplit) :
    List PaycheckDepositSplit :=
  splits.filter (fun s => decide (s.account_id ≠ []))

/-- The first eligible split flagged as the remainder (`remainderSplit`). -/
def remainderSplitOf (splits : List PaycheckDepositSplit) :
    Option PaycheckDepositSplit :=
  (eligibleSplitsOf splits).find? (fun s => optTrue s.is_remainder)

/-- Non-remainder splits with a nonzero amount, taken by magnitude
(`fixedSplits`). -/
def fixedSplitsOf (splits : List PaycheckDepositSplit) :
    List PaycheckDepositSplit :=
  ((eligibleSplitsOf splits).filter
      (fun s => !optTrue s.is_remainder && decide (s.amount ≠ 0))).map
    (fun s => { s with amount := |s.amount| })

/-- Sum of the fixed split amounts (`fixedTotal`). -/
def fixedTotalOf (splits : List PaycheckDepositSplit) : ℚ :=
  ((fixedSplitsOf splits).map (fun s => s.amount)).sum

/-- Remainder deposited after the fixed splits, rounded to cents and floored
at zero (`remainderAmount`). -/
def remainderAmountOf (entry : PaycheckEntry)
    (splits : List PaycheckDepositSplit) : ℚ :=
  roundToCents (max (|entry.amount| - fixedTotalOf splits) 0)

/-- Description given to a paycheck deposit transaction. -/
def paycheckTxDescr (entry : PaycheckEntry) : Str :=
  jsOrStr (entry.description.getD [])
    (if optTrue entry.is_bonus then strOf "Bonus" else strOf "Paycheck")

/-- One deposit transaction of a paycheck entry into a destination account. -/
def mkPaycheckTx (entry : PaycheckEntry) (ms : MonthSetup)
    (createdAt : Int) (generatedBatchId : Str) (amount : ℚ) (acct : Str) :
    Transaction :=
  { date := entry.date, amount := amount, account_id := acct,
    category_id := ms.paycheck_category_id,
    description := paycheckTxDescr entry,
    created_at := createdAt, updated_at := createdAt,
    source := some TxSource.generated,
    source_item_id := paycheckKey (optTrue entry.is_bonus) entry.date acct,
    generated_batch_id := some generatedBatchId }

/-- Models `buildPaycheckSplitTransactions`: expand one nonzero paycheck entry
into one transaction per fixed-amount split plus, when a remainder split
exists and the remainder is nonzero, one remainder transaction. -/
def buildPaycheckSplitTransactions (entry : PaycheckEntry)
    (splits : List PaycheckDepositSplit) (ms : MonthSetup)
    (createdAt : Int) (generatedBatchId : Str) : List Transaction :=
  if ms.paycheck_category_id = [] then []
  else if eligibleSplitsOf splits = [] then []
  else
    let tx : List Transaction := (fixedSplitsOf splits).map (fun s =>
      mkPaycheckTx entry ms createdAt generatedBatchId s.amount s.account_id)
    match remainderSplitOf splits with
    | some rs =>
        if remainderAmountOf entry splits ≠ 0 then
          tx ++ [mkPaycheckTx entry ms createdAt generatedBatchId
            (remainderAmountOf entry splits) rs.account_id]
        else tx
    | none => tx

/-- Key used to match paycheck overrides to estimate entries
(`buildKey`: `<date>:(bonus|regular)`). -/
def buildEntryKey (e : PaycheckEntry) : Str :=
  e.date ++ ':' :: (if optTrue e.is_bonus then strOf "bonus" else strOf "regular")

/-- Resolved estimate entries: the cached non-empty `paycheck_estimates`, or
else one default-amount entry per scheduled paycheck date. -/
def estimateEntriesOf (mId : MonthId) (ms : MonthSetup) : List PaycheckEntry :=
  let fallback := (getScheduleDates mId ms.paycheck_schedule ms.paycheck_anchor_date).map
    (fun date => { date := date, amount := ms.paycheck_default_amount,
                   is_bonus := some false : PaycheckEntry })
  match ms.paycheck_estimates with
  | some es => if es.length > 0 then es else fallback
  | none => fallback

/-- Object-spread merge `{...entry, ...override}`: required fields come from
the override, optional fields from the override when present. -/
def mergeEntry (entry o : PaycheckEntry) : PaycheckEntry :=
  { date := o.date, amount := o.amount,
    is_bonus := o.is_bonus.or entry.is_bonus,
    description := o.description.or entry.description }

/-- Lookup in the JavaScript `Map` built from the overrides list (the last
entry for a key wins). -/
def findOverride (overrides : List PaycheckEntry) (k : Str) :
    Option PaycheckEntry :=
  overrides.reverse.find? (fun o => decide (buildEntryKey o = k))

/-- Resolved paycheck entries of `generateMonthTransactions`: estimate entries
with matching overrides merged in, followed by the overrides whose key matches
no estimate entry (appended as extra paychecks). -/
def resolvePaycheckEntries (mId : MonthId) (ms : MonthSetup) :
    List PaycheckEntry :=
  let estimates := estimateEntriesOf mId ms
  let baseEntries := estimates.map (fun e =>
    match findOverride ms.paycheck_overrides (buildEntryKey e) with
    | some o => mergeEntry e o
    | none => e)
  let extraOverrides := ms.paycheck_overrides.filter
    (fun o => !(estimates.any (fun e => decide (buildEntryKey e = buildEntryKey o))))
  baseEntries ++ extraOverrides

/-- Paycheck deposit-split transactions of one generation run. -/
def paycheckTxOf (mId : MonthId) (ms : MonthSetup) (createdAt : Int)
    (generatedBatchId : Str) : List Transaction :=
  ((resolvePaycheckEntries mId ms).filter (fun e => decide (e.amount ≠ 0))).flatMap
    (fun e => buildPaycheckSplitTransactions e ms.paycheck_deposit_splits ms
      createdAt generatedBatchId)

/-- Amount override for one recurring item this month, from the JavaScript
`Map` of `variable_overrides` (last entry for an item wins). -/
def variableOverrideAmount (ms : MonthSetup) (itemId : Str) : Option ℚ :=
  (ms.variable_overrides.reverse.find? (fun o => decide (o.item_id = itemId))).map
    (fun o => o.amount)

/-- Dates generated for one recurring item in a month, by its cadence
(`generateMonthTransactions` lines 409..424). -/
def recurringDatesFor (mId : MonthId) (item : RecurringItem) : List Str :=
  let anchor := item.anchor_date.getD ⟨mId.y, mId.m, 1⟩
  match item.cadence with
  | .weekly => (getDatesByInterval mId anchor 7 (by omega)).map fmtYmd
  | .biweekly => (getDatesByInterval mId anchor 14 (by omega)).map fmtYmd
  | .semimonthly =>
      [fmtMonthId mId ++ '-' :: pad2 15,
       fmtMonthId mId ++ '-' :: pad2 (daysInMonth mId.y mId.m)]
  | .monthly =>
      [getMonthlyDate mId item.day_rule ((parseDate anchor).d : Int)]

/-- Transactions generated for one enabled recurring item. -/
def recurringTxFor (mId : MonthId) (ms : MonthSetup) (item : RecurringItem)
    (createdAt : Int) (generatedBatchId : Str) : List Transaction :=
  let amount := (variableOverrideAmount ms item.id).getD item.default_amount
  ((recurringDatesFor mId item).filter
      (fun _ => decide (item.category_id ≠ []) && decide (item.account_id ≠ []))).map
    (fun date =>
      { date := date, amount := resolveAmount item.type amount,
        account_id := item.account_id,
        transfer_account_id := item.transfer_account_id,
        category_id := item.category_id, loan_id := item.loan_id,
        description := item.name,
        created_at := createdAt, updated_at := createdAt,
        transaction_type := some item.type,
        source := some TxSource.generated,
        source_item_id := recurringKey item.id date,
        generated_batch_id := some generatedBatchId })

/-- Transactions generated from the month's one-off adjustments. -/
def oneOffTxOf (ms : MonthSetup) (createdAt : Int) (generatedBatchId : Str) :
    List Transaction :=
  (ms.one_offs.filter
      (fun adj => decide (adj.account_id ≠ []) && decide (adj.category_id ≠ []))).map
    (fun adj =>
      { date := adj.date, amount := resolveAmount adj.type adj.amount,
        account_id := adj.account_id,
        transfer_account_id := adj.transfer_account_id,
        category_id := adj.category_id, loan_id := adj.loan_id,
        description := jsOrStr adj.description (strOf "One-off adjustment"),
        created_at := createdAt, updated_at := createdAt,
        transaction_type := some adj.type,
        source := some TxSource.generated,
        source_item_id := oneOffKey adj.id,
        generated_batch_id := some generatedBatchId })

/-- The freshly generated transaction set of one run
(`generatedTransactions = [...paycheckTx, ...recurringTx, ...oneOffTx]`). -/
def generatedTransactionsOf (mId : MonthId) (ms : MonthSetup)
    (recurringItems : List RecurringItem) (createdAt : Int)
    (generatedBatchId : Str) : List Transaction :=
  paycheckTxOf mId ms createdAt generatedBatchId
    ++ (recurringItems.filter (fun item => item.enabled)).flatMap
        (fun item => recurringTxFor mId ms item createdAt generatedBatchId)
    ++ oneOffTxOf ms createdAt generatedBatchId

/-- Result of one generation run. -/
structure GenerateResult where
  transactions : List Transaction
  month_setup : MonthSetup
deriving Repr

/-- Models `generateMonthTransactions`. The random batch id and the
`Date.now()` timestamp are explicit parameters (see the header notes). -/
def generateMonthTransactions (mId : MonthId) (ms : MonthSetup)
    (recurringItems : List RecurringItem) (existing : List Transaction)
    (mode : GenerateMode) (generatedBatchId : Str) (createdAt : Int) :
    GenerateResult :=
  let generated := generatedTransactionsOf mId ms recurringItems createdAt
    generatedBatchId
  let next : List Transaction :=
    match mode with
    | .reset => generated
    | .regenerate =>
        existing.filter (fun tx => decide (tx.source ≠ some TxSource.generated))
          ++ generated
    | .missing =>
        let existingIds := (existing.map (fun tx => tx.source_item_id)).filter
          (fun s => decide (s ≠ []))
        existing ++ generated.filter (fun tx => decide (tx.source_item_id ∉ existingIds))
  { transactions := next,
    month_setup := { ms with
                     last_generated_at := createdAt,
                     generation_version := ms.generation_version + 1 } }

/-! ### Claim C7: monthly schedule-date generation -/

/-- Concrete character list of the "day:" literal. -/
theorem strOf_day_colon : strOf "day:" = ['d', 'a', 'y', ':'] := rfl

/-- Concrete character list of the "last" literal. -/
theorem strOf_last : strOf "last" = ['l', 'a', 's', 't'] := rfl

/-- A string with the "day:" option prefix never parses as an integer
(its first character is a letter). -/
theorem jsParseInt_of_day_prefixed {s : Str}
    (h : strStartsWith s (strOf "day:") = true) : jsParseInt s = none := by
  unfold strStartsWith at h
  obtain ⟨t, ht⟩ := (List.isPrefixOf_iff_prefix.1 h)
  rw [strOf_day_colon] at ht
  subst ht
  rfl

/-- Claim C7 — for every month, monthly schedule-date generation yields the
single date given by `getMonthlyDate`: (a) day rule "last" yields the final
calendar day; (b) a day rule whose (optionally "day:"-prefixed) text parses as
an integer n yields day n clamped into [1, daysInMonth]; (c) the "day:N" form
is equivalent to the bare number N; (d) an unparseable day rule falls back to
the supplied fallback day (the anchor date's day-of-month at the recurring
call site), clamped the same way; (e) day rule "31" in February 2024 clamps to
"2024-02-29" and never overflows into March; (f) a monthly-cadence recurring
item generates exactly the one date produced by `getMonthlyDate` with the
anchor's day-of-month as fallback. -/
theorem getMonthlyDate_monthly_rule (mId : MonthId) :
    (∀ fb : Int, getMonthlyDate mId (strOf "last") fb
        = fmtMonthId mId ++ '-' :: pad2 (daysInMonth mId.y mId.m))
    ∧ (∀ (dayRule : Str) (fb n : Int),
        dayRule ≠ strOf "last" →
        jsParseInt (if strStartsWith dayRule (strOf "day:") then dayRule.drop 4
          else dayRule) = some n →
        getMonthlyDate mId dayRule fb
          = fmtMonthId mId
              ++ '-' :: pad2 (min (max n 1) (daysInMonth mId.y mId.m : Int)).toNat)
    ∧ (∀ (s : Str) (fb n : Int), jsParseInt s = some n →
        getMonthlyDate mId (strOf "day:" ++ s) fb = getMonthlyDate mId s fb)
    ∧ (∀ (dayRule : Str) (fb : Int),
        dayRule ≠ strOf "last" →
        jsParseInt (if strStartsWith dayRule (strOf "day:") then dayRule.drop 4
          else dayRule) = none →
        getMonthlyDate mId dayRule fb
          = fmtMonthId mId
              ++ '-' :: pad2 (min (max fb 1) (daysInMonth mId.y mId.m : Int)).toNat)
    ∧ getMonthlyDate ⟨2024, 2⟩ (strOf "31") 1 = strOf "2024-02-29"
    ∧ (∀ item : RecurringItem, item.cadence = Cadence.monthly →
        recurringDatesFor mId item
          = [getMonthlyDate mId item.day_rule
              ((parseDate (item.anchor_date.getD ⟨mId.y, mId.m, 1⟩)).d : Int)]) := by
  refine ⟨?_, ?_, ?_, ?_, ?_, ?_⟩
  · intro fb
    unfold getMonthlyDate
    rw [if_pos rfl]
  · intro dayRule fb n hne hp
    unfold getMonthlyDate
    rw [if_neg hne]
    simp only [hp]
  · intro s fb n hp
    have hlhs_ne : strOf "day:" ++ s ≠ strOf "last" := by
      rw [strOf_day_colon, strOf_last]
      intro h
      exact absurd (List.head_eq_of_cons_eq h) (by decide)
    have hsw : strStartsWith (strOf "day:" ++ s) (strOf "day:") = true := by
      unfold strStartsWith
      exact List.isPrefixOf_iff_prefix.2 ⟨s, rfl⟩
    have hdrop : (strOf "day:" ++ s).drop 4 = s := by
      rw [strOf_day_colon]
      rfl
    have hs_ne : s ≠ strOf "last" := by
      intro h
      rw [h] at hp
      have hnone : jsParseInt (strOf "last") = none := by decide
      rw [hnone] at hp
      exact Option.noConfusion hp
    have hs_nsw : strStartsWith s (strOf "day:") = false := by
      cases hb : strStartsWith s (strOf "day:") with
      | false => rfl
      | true =>
        rw [jsParseInt_of_day_prefixed hb] at hp
        exact Option.noConfusion hp
    unfold getMonthlyDate
    rw [if_neg hlhs_ne, if_neg hs_ne]
    simp [hsw, hdrop, hs_nsw]
  · intro dayRule fb hne hp
    unfold getMonthlyDate
    rw [if_neg hne]
    simp only [hp]
  · decide
  · intro item hc
    unfold recurringDatesFor
    rw [hc]

/-- Witness for C7: the clamping branch applied to day rule "31" in February
2024 (29 days), yielding the clamped final day. -/
theorem getMonthlyDate_monthly_rule_witness :
    ((strOf "31" : Str) ≠ strOf "last"
      ∧ jsParseInt (if strStartsWith (strOf "31") (strOf "day:")
          then (strOf "31").drop 4 else strOf "31") = some 31)
    ∧ getMonthlyDate ⟨2024, 2⟩ (strOf "31") 1
        = fmtMonthId ⟨2024, 2⟩
            ++ '-' :: pad2 (min (max (31 : Int) 1) ((daysInMonth 2024 2 : Nat) : Int)).toNat :=
  ⟨⟨by decide, by decide⟩,
   (getMonthlyDate_monthly_rule ⟨2024, 2⟩).2.1 (strOf "31") 1 31
     (by decide) (by decide)⟩

/-! ### Claims C2 and C3: regeneration determinism and frame properties -/

/-- The projection of a transaction onto the fields the regeneration claims
compare: (date, amount, account_id, source_item_id). -/
def txProjection (tx : Transaction) : Str × ℚ × Str × Str :=
  (tx.date, tx.amount, tx.account_id, tx.source_item_id)

/-- Concrete character list of the "bonus" literal. -/
theorem strOf_bonus : strOf "bonus" = ['b', 'o', 'n', 'u', 's'] := rfl

/-- Concrete character list of the "paycheck" literal. -/
theorem strOf_paycheck :
    strOf "paycheck" = ['p', 'a', 'y', 'c', 'h', 'e', 'c', 'k'] := rfl

/-- Concrete character list of the "recurring" literal. -/
theorem strOf_recurring :
    strOf "recurring" = ['r', 'e', 'c', 'u', 'r', 'r', 'i', 'n', 'g'] := rfl

/-- Concrete character list of the "oneoff" literal. -/
theorem strOf_oneoff : strOf "oneoff" = ['o', 'n', 'e', 'o', 'f', 'f'] := rfl

/-- The projected fields of the paycheck split transactions do not depend on
the batch id or the timestamp. -/
theorem proj_buildPaycheckSplitTransactions (e : PaycheckEntry)
    (splits : List PaycheckDepositSplit) (ms : MonthSetup)
    (t₁ t₂ : Int) (b₁ b₂ : Str) :
    (buildPaycheckSplitTransactions e splits ms t₁ b₁).map txProjection
      = (buildPaycheckSplitTransactions e splits ms t₂ b₂).map txProjection := by
  unfold buildPaycheckSplitTransactions
  by_cases h1 : ms.paycheck_category_id = []
  · simp [h1]
  by_cases h2 : eligibleSplitsOf splits = []
  · simp [h1, h2]
  simp only [h1, h2, if_false]
  cases hfind : remainderSplitOf splits with
  | none => simp [List.map_map, mkPaycheckTx, txProjection, Function.comp]
  | some rs =>
    by_cases h3 : remainderAmountOf e splits ≠ 0 <;>
      simp [h3, List.map_map, List.map_append, mkPaycheckTx, txProjection,
        Function.comp]

/-- The projected fields of a recurring item's transactions do not depend on
the batch id or the timestamp. -/
theorem proj_recurringTxFor (mId : MonthId) (ms : MonthSetup)
    (item : RecurringItem) (t₁ t₂ : Int) (b₁ b₂ : Str) :
    (recurringTxFor mId ms item t₁ b₁).map txProjection
      = (recurringTxFor mId ms item t₂ b₂).map txProjection := by
  simp [recurringTxFor, List.map_map, txProjection, Function.comp]

/-- The projected fields of the one-off transactions do not depend on the
batch id or the timestamp. -/
theorem proj_oneOffTxOf (ms : MonthSetup) (t₁ t₂ : Int) (b₁ b₂ : Str) :
    (oneOffTxOf ms t₁ b₁).map txProjection
      = (oneOffTxOf ms t₂ b₂).map txProjection := by
  simp [oneOffTxOf, List.map_map, txProjection, Function.comp]

/-- The projected fields of a whole generated set do not depend on the batch
id or the timestamp. -/
theorem proj_generatedTransactionsOf (mId : MonthId) (ms : MonthSetup)
    (items : List RecurringItem) (t₁ t₂ : Int) (b₁ b₂ : Str) :
    (generatedTransactionsOf mId ms items t₁ b₁).map txProjection
      = (generatedTransactionsOf mId ms items t₂ b₂).map txProjection := by
  unfold generatedTransactionsOf paycheckTxOf
  simp only [List.map_append, List.map_flatMap]
  congr 1
  · congr 1
    · exact List.flatMap_congr (fun e _ =>
        proj_buildPaycheckSplitTransactions e ms.paycheck_deposit_splits ms t₁ t₂ b₁ b₂)
    · exact List.flatMap_congr (fun item _ =>
        proj_recurringTxFor mId ms item t₁ t₂ b₁ b₂)
  · exact proj_oneOffTxOf ms t₁ t₂ b₁ b₂

/-- Claim C2 — regeneration is deterministic up to ids and timestamps: two
`generateMonthTransactions` runs in regenerate mode on identical inputs
(month, setup, recurring items, existing transactions) produce transaction
lists that agree in (date, amount, account_id, source_item_id), whatever
batch ids and timestamps the two runs drew. -/
theorem generateMonthTransactions_regenerate_idempotent
    (mId : MonthId) (ms : MonthSetup) (items : List RecurringItem)
    (existing : List Transaction) (b₁ b₂ : Str) (t₁ t₂ : Int) :
    ((generateMonthTransactions mId ms items existing GenerateMode.regenerate
        b₁ t₁).transactions).map txProjection
      = ((generateMonthTransactions mId ms items existing GenerateMode.regenerate
        b₂ t₂).transactions).map txProjection := by
  simp only [generateMonthTransactions, List.map_append]
  rw [proj_generatedTransactionsOf mId ms items t₁ t₂ b₁ b₂]

/-- Paycheck split keys are never the empty string. -/
theorem paycheckKey_ne_nil (bo : Bool) (d a : Str) : paycheckKey bo d a ≠ [] := by
  cases bo <;> simp [paycheckKey, strOf_bonus, strOf_paycheck]

/-- Recurring keys are never the empty string. -/
theorem recurringKey_ne_nil (i d : Str) : recurringKey i d ≠ [] := by
  simp [recurringKey, strOf_recurring]

/-- One-off keys are never the empty string. -/
theorem oneOffKey_ne_nil (i : Str) : oneOffKey i ≠ [] := by
  simp [oneOffKey, strOf_oneoff]

/-- Every transaction emitted by `buildPaycheckSplitTransactions` is a
`mkPaycheckTx` of the entry into some account. -/
theorem mem_buildPaycheckSplitTransactions {e : PaycheckEntry}
    {splits : List PaycheckDepositSplit} {ms : MonthSetup} {t : Int} {b : Str}
    {tx : Transaction} (h : tx ∈ buildPaycheckSplitTransactions e splits ms t b) :
    ∃ amt acct, tx = mkPaycheckTx e ms t b amt acct := by
  unfold buildPaycheckSplitTransactions at h
  split at h
  · exact absurd h (List.not_mem_nil _)
  split at h
  · exact absurd h (List.not_mem_nil _)
  cases hfind : remainderSplitOf splits with
  | none =>
    rw [hfind] at h
    dsimp only at h
    rcases List.mem_map.1 h with ⟨s, _, rfl⟩
    exact ⟨s.amount, s.account_id, rfl⟩
  | some rs =>
    rw [hfind] at h
    dsimp only at h
    by_cases hra : remainderAmountOf e splits ≠ 0
    · rw [if_pos hra] at h
      rcases List.mem_append.1 h with h | h
      · rcases List.mem_map.1 h with ⟨s, _, rfl⟩
        exact ⟨s.amount, s.account_id, rfl⟩
      · exact ⟨remainderAmountOf e splits, rs.account_id, List.mem_singleton.1 h⟩
    · rw [if_neg hra] at h
      rcases List.mem_map.1 h with ⟨s, _, rfl⟩
      exact ⟨s.amount, s.account_id, rfl⟩

/-- Every freshly generated transaction is marked `generated` and carries a
nonempty `source_item_id`. -/
theorem generatedTransactionsOf_mem {mId : MonthId} {ms : MonthSetup}
    {items : List RecurringItem} {t : Int} {b : Str} {tx : Transaction}
    (h : tx ∈ generatedTransactionsOf mId ms items t b) :
    tx.source = some TxSource.generated ∧ tx.source_item_id ≠ [] := by
  unfold generatedTransactionsOf at h
  rcases List.mem_append.1 h with h1 | h1
  · rcases List.mem_append.1 h1 with h2 | h2
    · unfold paycheckTxOf at h2
      rcases List.mem_flatMap.1 h2 with ⟨e, _, he⟩
      obtain ⟨amt, acct, rfl⟩ := mem_buildPaycheckSplitTransactions he
      exact ⟨rfl, paycheckKey_ne_nil _ _ _⟩
    · rcases List.mem_flatMap.1 h2 with ⟨item, _, hi⟩
      unfold recurringTxFor at hi
      rcases List.mem_map.1 hi with ⟨d, _, rfl⟩
      exact ⟨rfl, recurringKey_ne_nil _ _⟩
  · unfold oneOffTxOf at h1
    rcases List.mem_map.1 h1 with ⟨adj, _, rfl⟩
    exact ⟨rfl, oneOffKey_ne_nil _⟩

/-- Claim C3 — frame properties of the merge modes: (a) missing mode returns
every existing transaction unchanged, in place, and only appends generated
transactions whose `source_item_id` matches no existing transaction's id;
(b) regenerate mode returns exactly the existing transactions with
source ≠ generated (unchanged, in order) followed by the fresh generated set;
(c) in both modes every manual (more generally, non-generated) existing
transaction is still present in the result. -/
theorem generateMonthTransactions_frame (mId : MonthId) (ms : MonthSetup)
    (items : List RecurringItem) (existing : List Transaction)
    (b : Str) (t : Int) :
    (∃ app : List Transaction,
        (generateMonthTransactions mId ms items existing GenerateMode.missing
            b t).transactions = existing ++ app
        ∧ ∀ tx ∈ app, tx.source = some TxSource.generated
            ∧ ∀ ex ∈ existing, ex.source_item_id ≠ tx.source_item_id)
    ∧ (generateMonthTransactions mId ms items existing GenerateMode.regenerate
          b t).transactions
        = existing.filter (fun tx => decide (tx.source ≠ some TxSource.generated))
            ++ generatedTransactionsOf mId ms items t b
    ∧ (∀ tx ∈ existing, tx.source ≠ some TxSource.generated →
        tx ∈ (generateMonthTransactions mId ms items existing GenerateMode.missing
            b t).transactions
        ∧ tx ∈ (generateMonthTransactions mId ms items existing
            GenerateMode.regenerate b t).transactions) := by
  refine ⟨⟨(generatedTransactionsOf mId ms items t b).filter
      (fun tx => decide (tx.source_item_id ∉ (existing.map
        (fun tx => tx.source_item_id)).filter (fun s => decide (s ≠ [])))), ?_, ?_⟩,
      ?_, ?_⟩
  · rfl
  · intro tx htx
    rcases List.mem_filter.1 htx with ⟨hmem, hpred⟩
    have hgen := generatedTransactionsOf_mem hmem
    refine ⟨hgen.1, ?_⟩
    intro ex hex heq
    have hnotin := of_decide_eq_true hpred
    apply hnotin
    apply List.mem_filter.2
    refine ⟨?_, ?_⟩
    · rw [← heq]
      exact List.mem_map.2 ⟨ex, hex, rfl⟩
    · rw [← heq]
      exact decide_eq_true (fun hnil => hgen.2 (heq ▸ hnil))
  · rfl
  · intro tx htx hsrc
    constructor
    · exact List.mem_append.2 (Or.inl htx)
    · exact List.mem_append.2 (Or.inl (List.mem_filter.2 ⟨htx, decide_eq_true hsrc⟩))

/-! ### Claim C10: unmatched paycheck overrides become extra paychecks -/

/-- Claim C10 — a paycheck override whose (date, bonus-flag) key matches no
resolved estimate entry is not discarded: it appears as an entry of its own in
the resolved paycheck entries, and when its amount is nonzero its deposit-split
transactions (exactly those of a scheduled paycheck) are part of the generated
transaction set. -/
theorem paycheck_override_adds_entry (mId : MonthId) (ms : MonthSetup)
    (items : List RecurringItem) (b : Str) (t : Int) (o : PaycheckEntry)
    (ho : o ∈ ms.paycheck_overrides)
    (hkey : ∀ e ∈ estimateEntriesOf mId ms, buildEntryKey e ≠ buildEntryKey o) :
    o ∈ resolvePaycheckEntries mId ms
    ∧ (o.amount ≠ 0 →
        ∀ tx ∈ buildPaycheckSplitTransactions o ms.paycheck_deposit_splits ms t b,
          tx ∈ generatedTransactionsOf mId ms items t b) := by
  have hextra : o ∈ ms.paycheck_overrides.filter
      (fun o => !((estimateEntriesOf mId ms).any
        (fun e => decide (buildEntryKey e = buildEntryKey o)))) := by
    apply List.mem_filter.2
    refine ⟨ho, ?_⟩
    rw [Bool.not_eq_true']
    rw [List.any_eq_false]
    intro e he
    exact fun hc => hkey e he (of_decide_eq_true hc)
  have hres : o ∈ resolvePaycheckEntries mId ms := by
    unfold resolvePaycheckEntries
    exact List.mem_append.2 (Or.inr hextra)
  refine ⟨hres, ?_⟩
  intro hamt tx htx
  unfold generatedTransactionsOf
  apply List.mem_append.2
  apply Or.inl
  apply List.mem_append.2
  apply Or.inl
  unfold paycheckTxOf
  apply List.mem_flatMap.2
  exact ⟨o, List.mem_filter.2 ⟨hres, decide_eq_true hamt⟩, htx⟩

/-- Concrete month setup for the C10 witness: one cached estimate on
2024-01-05 and one override dated 2024-01-20 that matches nothing. -/
def c10Setup : MonthSetup :=
  { paycheck_schedule := Cadence.monthly,
    paycheck_anchor_date := ⟨2024, 1, 1⟩,
    paycheck_deposit_splits := [⟨strOf "s1", strOf "A", 0, some true⟩],
    paycheck_category_id := strOf "cat",
    paycheck_default_amount := 0,
    paycheck_estimates := some [⟨strOf "2024-01-05", 100, some false, none⟩],
    paycheck_overrides := [⟨strOf "2024-01-20", 50, some false, none⟩],
    variable_overrides := [],
    one_offs := [],
    last_generated_at := 0,
    generation_version := 1 }

/-- The unmatched override of the C10 witness. -/
def c10Override : PaycheckEntry := ⟨strOf "2024-01-20", 50, some false, none⟩

/-- Witness for C10: on the concrete setup, the unmatched override is appended
to the resolved paycheck entries. -/
theorem paycheck_override_adds_entry_witness :
    (c10Override ∈ c10Setup.paycheck_overrides
      ∧ ∀ e ∈ estimateEntriesOf ⟨2024, 1⟩ c10Setup,
          buildEntryKey e ≠ buildEntryKey c10Override)
    ∧ c10Override ∈ resolvePaycheckEntries ⟨2024, 1⟩ c10Setup :=
  ⟨⟨by decide, by decide⟩,
   (paycheck_override_adds_entry ⟨2024, 1⟩ c10Setup [] (strOf "batch") 0
      c10Override (by decide) (by decide)).1⟩

/-! ### Claim C8: distinctness of generated source_item_id keys

The composite keys are colon-separated strings. Splitting at the first colon
is unambiguous when the component before it contains no colon, which is what
the injectivity lemmas below rely on (and why some hypotheses of the
distinctness theorem ask for colon-free user-supplied ids and dates). -/

/-- Unambiguous split at the first colon: if the leading components are
colon-free, both components agree. -/
theorem append_colon_inj :
    ∀ {d₁ : Str} {a₁ : Str} {d₂ a₂ : Str},
      d₁ ++ ':' :: a₁ = d₂ ++ ':' :: a₂ → ':' ∉ d₁ → ':' ∉ d₂ →
      d₁ = d₂ ∧ a₁ = a₂ := by
  intro d₁
  induction d₁ with
  | nil =>
    intro a₁ d₂ a₂ h h₁ h₂
    cases d₂ with
    | nil => simpa using h
    | cons c t =>
      exfalso
      apply h₂
      have hc := List.head_eq_of_cons_eq h
      rw [hc]
      exact List.mem_cons_self _ _
  | cons c t ih =>
    intro a₁ d₂ a₂ h h₁ h₂
    cases d₂ with
    | nil =>
      exfalso
      apply h₁
      have hc := List.head_eq_of_cons_eq h
      rw [← hc]
      exact List.mem_cons_self _ _
    | cons c2 t2 =>
      have hc := List.head_eq_of_cons_eq h
      have ht := List.tail_eq_of_cons_eq h
      have h₁t : ':' ∉ t := fun hm => h₁ (List.mem_cons_of_mem _ hm)
      have h₂t : ':' ∉ t2 := fun hm => h₂ (List.mem_cons_of_mem _ hm)
      obtain ⟨he, ha⟩ := ih ht h₁t h₂t
      exact ⟨by rw [hc, he], ha⟩

/-- A paycheck key determines its bonus flag, date and account (dates being
colon-free, as every date the generator itself produces is). -/
theorem paycheckKey_inj {b₁ b₂ : Bool} {d₁ d₂ a₁ a₂ : Str}
    (h : paycheckKey b₁ d₁ a₁ = paycheckKey b₂ d₂ a₂)
    (hd₁ : ':' ∉ d₁) (hd₂ : ':' ∉ d₂) :
    b₁ = b₂ ∧ d₁ = d₂ ∧ a₁ = a₂ := by
  have hb : b₁ = b₂ := by
    by_contra hne
    cases b₁ <;> cases b₂ <;>
      simp_all [paycheckKey, strOf_bonus, strOf_paycheck]
  subst hb
  refine ⟨rfl, ?_⟩
  have hrest : d₁ ++ ':' :: a₁ = d₂ ++ ':' :: a₂ := by
    cases b₁ <;>
      simpa [paycheckKey, strOf_bonus, strOf_paycheck] using h
  exact append_colon_inj hrest hd₁ hd₂

/-- A paycheck key with fixed flag and date determines the account. -/
theorem paycheckKey_inj_acct {bo : Bool} {d a₁ a₂ : Str}
    (h : paycheckKey bo d a₁ = paycheckKey bo d a₂) : a₁ = a₂ := by
  unfold paycheckKey at h
  have h1 := List.tail_eq_of_cons_eq (List.append_cancel_left h)
  exact List.tail_eq_of_cons_eq (List.append_cancel_left h1)

/-- A recurring key with fixed item id determines the date. -/
theorem recurringKey_inj_date {i d₁ d₂ : Str}
    (h : recurringKey i d₁ = recurringKey i d₂) : d₁ = d₂ := by
  unfold recurringKey at h
  have h1 := List.tail_eq_of_cons_eq (List.append_cancel_left h)
  exact List.tail_eq_of_cons_eq (List.append_cancel_left h1)

/-- A recurring key determines its item id and date (item ids being
colon-free). -/
theorem recurringKey_inj {i₁ i₂ d₁ d₂ : Str}
    (h : recurringKey i₁ d₁ = recurringKey i₂ d₂)
    (hi₁ : ':' ∉ i₁) (hi₂ : ':' ∉ i₂) : i₁ = i₂ ∧ d₁ = d₂ := by
  unfold recurringKey at h
  exact append_colon_inj (List.tail_eq_of_cons_eq (List.append_cancel_left h))
    hi₁ hi₂

/-- One-off keys are injective in the adjustment id. -/
theorem oneOffKey_inj : Function.Injective oneOffKey := by
  intro a₁ a₂ h
  unfold oneOffKey at h
  exact List.tail_eq_of_cons_eq (List.append_cancel_left h)

/-- Paycheck keys and recurring keys never coincide (first characters
differ). -/
theorem paycheckKey_ne_recurringKey (bo : Bool) (d a i d2 : Str) :
    paycheckKey bo d a ≠ recurringKey i d2 := by
  cases bo <;>
    simp [paycheckKey, recurringKey, strOf_bonus, strOf_paycheck, strOf_recurring]

/-- Paycheck keys and one-off keys never coincide. -/
theorem paycheckKey_ne_oneOffKey (bo : Bool) (d a i : Str) :
    paycheckKey bo d a ≠ oneOffKey i := by
  cases bo <;>
    simp [paycheckKey, oneOffKey, strOf_bonus, strOf_paycheck, strOf_oneoff]

/-- Recurring keys and one-off keys never coincide. -/
theorem recurringKey_ne_oneOffKey (i d j : Str) :
    recurringKey i d ≠ oneOffKey j := by
  simp [recurringKey, oneOffKey, strOf_recurring, strOf_oneoff]

/-- Destination accounts of the transactions emitted for one paycheck entry:
the fixed-split accounts plus, when a nonzero remainder is deposited, the
remainder split's account. -/
def emittedSplitAccounts (e : PaycheckEntry)
    (splits : List PaycheckDepositSplit) (ms : MonthSetup) : List Str :=
  if ms.paycheck_category_id = [] then []
  else if eligibleSplitsOf splits = [] then []
  else
    let accts := (fixedSplitsOf splits).map (fun s => s.account_id)
    match remainderSplitOf splits with
    | some rs =>
        if remainderAmountOf e splits ≠ 0 then accts ++ [rs.account_id]
        else accts
    | none => accts

/-- The keys of one entry's split transactions are exactly the paycheck keys
of its emitted destination accounts. -/
theorem keys_buildPaycheckSplitTransactions (e : PaycheckEntry)
    (splits : List PaycheckDepositSplit) (ms : MonthSetup) (t : Int) (b : Str) :
    (buildPaycheckSplitTransactions e splits ms t b).map
        (fun tx => tx.source_item_id)
      = (emittedSplitAccounts e splits ms).map
          (paycheckKey (optTrue e.is_bonus) e.date) := by
  unfold buildPaycheckSplitTransactions emittedSplitAccounts
  by_cases h1 : ms.paycheck_category_id = []
  · simp [h1]
  by_cases h2 : eligibleSplitsOf splits = []
  · simp [h1, h2]
  simp only [h1, h2, if_false]
  cases hfind : remainderSplitOf splits with
  | none => simp [List.map_map, mkPaycheckTx, Function.comp]
  | some rs =>
    by_cases h3 : remainderAmountOf e splits ≠ 0 <;>
      simp [h3, List.map_map, List.map_append, mkPaycheckTx, Function.comp]

/-- Fixed splits carry the account ids of the corresponding eligible splits
(the magnitude rewrite does not touch accounts). -/
theorem fixedSplits_accounts (splits : List PaycheckDepositSplit) :
    (fixedSplitsOf splits).map (fun s => s.account_id)
      = ((eligibleSplitsOf splits).filter
          (fun s => !optTrue s.is_remainder && decide (s.amount ≠ 0))).map
          (fun s => s.account_id) := by
  unfold fixedSplitsOf
  rw [List.map_map]
  rfl

/-- With pairwise-distinct eligible split accounts, the emitted destination
accounts of one entry are pairwise distinct. -/
theorem emittedSplitAccounts_nodup (e : PaycheckEntry)
    (splits : List PaycheckDepositSplit) (ms : MonthSetup)
    (hnd : ((eligibleSplitsOf splits).map (fun s => s.account_id)).Nodup) :
    (emittedSplitAccounts e splits ms).Nodup := by
  have haccts : ((fixedSplitsOf splits).map (fun s => s.account_id)).Nodup := by
    rw [fixedSplits_accounts]
    exact hnd.sublist ((List.filter_sublist _).map _)
  unfold emittedSplitAccounts
  split
  · exact List.nodup_nil
  split
  · exact List.nodup_nil
  cases hfind : remainderSplitOf splits with
  | none => exact haccts
  | some rs =>
    dsimp only
    split
    · rename_i hra
      have hfind2 : (eligibleSplitsOf splits).find?
          (fun s => optTrue s.is_remainder) = some rs := hfind
      have hrs_mem : rs ∈ eligibleSplitsOf splits :=
        List.mem_of_find?_eq_some hfind2
      have hrs_p : optTrue rs.is_remainder = true := by
        have h := List.find?_some hfind2
        simpa using h
      refine List.Nodup.append haccts (List.nodup_singleton _) ?_
      intro a ha ha2
      rw [List.mem_singleton.1 ha2] at ha
      rw [fixedSplits_accounts] at ha
      rcases List.mem_map.1 ha with ⟨s, hs, heq⟩
      rcases List.mem_filter.1 hs with ⟨hs_mem, hs_pred⟩
      have hs_nr : optTrue s.is_remainder = false := by
        rw [Bool.and_eq_true] at hs_pred
        rcases hs_pred with ⟨hp, _⟩
        rwa [Bool.not_eq_true'] at hp
      have hsrs : s = rs := List.inj_on_of_nodup_map hnd hs_mem hrs_mem heq
      rw [hsrs, hrs_p] at hs_nr
      exact absurd hs_nr (by decide)
    · exact haccts


/-- The keys of a recurring item's transactions are its recurring keys, one
per generated (and kept) date. -/
theorem keys_recurringTxFor (mId : MonthId) (ms : MonthSetup)
    (item : RecurringItem) (t : Int) (b : Str) :
    (recurringTxFor mId ms item t b).map (fun tx => tx.source_item_id)
      = ((recurringDatesFor mId item).filter
          (fun _ => decide (item.category_id ≠ []) && decide (item.account_id ≠ []))).map
          (recurringKey item.id) := by
  simp [recurringTxFor, List.map_map, Function.comp]

/-- The keys of the one-off transactions are the one-off keys of the valid
adjustments. -/
theorem keys_oneOffTxOf (ms : MonthSetup) (t : Int) (b : Str) :
    (oneOffTxOf ms t b).map (fun tx => tx.source_item_id)
      = (ms.one_offs.filter
          (fun adj => decide (adj.account_id ≠ []) && decide (adj.category_id ≠ []))).map
          (fun adj => oneOffKey adj.id) := by
  simp [oneOffTxOf, List.map_map, Function.comp]

/-- Distinctness of the paycheck-family keys, given distinct resolved entry
keys, colon-free entry dates and distinct split accounts. -/
theorem paycheckTxOf_keys_nodup (mId : MonthId) (ms : MonthSetup)
    (t : Int) (b : Str)
    (hentries : ((resolvePaycheckEntries mId ms).map
        (fun e => (e.date, optTrue e.is_bonus))).Nodup)
    (hdates : ∀ e ∈ resolvePaycheckEntries mId ms, ':' ∉ e.date)
    (hsplits : ((eligibleSplitsOf ms.paycheck_deposit_splits).map
        (fun s => s.account_id)).Nodup) :
    ((paycheckTxOf mId ms t b).map (fun tx => tx.source_item_id)).Nodup := by
  unfold paycheckTxOf
  rw [List.map_flatMap, List.nodup_flatMap]
  constructor
  · intro e _
    rw [keys_buildPaycheckSplitTransactions]
    exact (emittedSplitAccounts_nodup e _ ms hsplits).map
      (fun a₁ a₂ h => paycheckKey_inj_acct h)
  · have hpw0 : (resolvePaycheckEntries mId ms).Pairwise
        (fun e₁ e₂ => (e₁.date, optTrue e₁.is_bonus)
          ≠ (e₂.date, optTrue e₂.is_bonus)) :=
      List.pairwise_map.mp hentries
    have hpw := List.Pairwise.sublist
      (List.filter_sublist (p := fun e => decide (e.amount ≠ 0))
        (resolvePaycheckEntries mId ms)) hpw0
    refine hpw.imp_of_mem ?_
    intro e₁ e₂ h₁ h₂ hne
    simp only [Function.onFun]
    intro k hk₁ hk₂
    rw [keys_buildPaycheckSplitTransactions] at hk₁ hk₂
    rcases List.mem_map.1 hk₁ with ⟨a₁, _, rfl⟩
    rcases List.mem_map.1 hk₂ with ⟨a₂, _, hkey⟩
    have hd₁ := hdates e₁ (List.mem_of_mem_filter h₁)
    have hd₂ := hdates e₂ (List.mem_of_mem_filter h₂)
    obtain ⟨hb, hd, _⟩ := paycheckKey_inj hkey hd₂ hd₁
    exact hne (by rw [Prod.mk.injEq]; exact ⟨hd.symm, hb.symm⟩)

/-- Distinctness of the recurring-family keys, given distinct colon-free item
ids and per-item distinct dates. -/
theorem recurringTx_keys_nodup (mId : MonthId) (ms : MonthSetup)
    (items : List RecurringItem) (t : Int) (b : Str)
    (hids : (items.map (fun i => i.id)).Nodup)
    (hnc : ∀ i ∈ items, ':' ∉ i.id)
    (hdates : ∀ i ∈ items, (recurringDatesFor mId i).Nodup) :
    (((items.filter (fun i => i.enabled)).flatMap
        (fun item => recurringTxFor mId ms item t b)).map
      (fun tx => tx.source_item_id)).Nodup := by
  rw [List.map_flatMap, List.nodup_flatMap]
  constructor
  · intro i hi
    rw [keys_recurringTxFor]
    refine List.Nodup.map (fun d₁ d₂ h => recurringKey_inj_date h) ?_
    exact ((hdates i (List.mem_of_mem_filter hi)).filter _)
  · have hids2 : ((items.filter (fun i => i.enabled)).map (fun i => i.id)).Nodup :=
      List.Nodup.sublist ((List.filter_sublist _).map _) hids
    have hpw0 : (items.filter (fun i => i.enabled)).Pairwise
        (fun i₁ i₂ => i₁.id ≠ i₂.id) := List.pairwise_map.mp hids2
    refine hpw0.imp_of_mem ?_
    intro i₁ i₂ h₁ h₂ hne
    simp only [Function.onFun]
    intro k hk₁ hk₂
    rw [keys_recurringTxFor] at hk₁ hk₂
    rcases List.mem_map.1 hk₁ with ⟨d₁, _, rfl⟩
    rcases List.mem_map.1 hk₂ with ⟨d₂, _, hkey⟩
    obtain ⟨hid, _⟩ := recurringKey_inj hkey
      (hnc i₂ (List.mem_of_mem_filter h₂)) (hnc i₁ (List.mem_of_mem_filter h₁))
    exact hne hid.symm

/-- Distinctness of the one-off-family keys, given distinct adjustment ids. -/
theorem oneOffTxOf_keys_nodup (ms : MonthSetup) (t : Int) (b : Str)
    (hids : (ms.one_offs.map (fun a => a.id)).Nodup) :
    ((oneOffTxOf ms t b).map (fun tx => tx.source_item_id)).Nodup := by
  rw [keys_oneOffTxOf]
  have h1 : ((ms.one_offs.filter
      (fun adj => decide (adj.account_id ≠ []) && decide (adj.category_id ≠ []))).map
      (fun a => a.id)).Nodup :=
    List.Nodup.sublist ((List.filter_sublist _).map _) hids
  have h2 : (ms.one_offs.filter
        (fun adj => decide (adj.account_id ≠ []) && decide (adj.category_id ≠ []))).map
        (fun adj => oneOffKey adj.id)
      = ((ms.one_offs.filter
        (fun adj => decide (adj.account_id ≠ []) && decide (adj.category_id ≠ []))).map
        (fun a => a.id)).map oneOffKey := by
    rw [List.map_map]
    rfl
  rw [h2]
  exact List.Nodup.map oneOffKey_inj h1

/-- Every paycheck-family key is a paycheck key. -/
theorem mem_paycheckTxOf_keys {mId : MonthId} {ms : MonthSetup} {t : Int}
    {b : Str} {k : Str}
    (h : k ∈ (paycheckTxOf mId ms t b).map (fun tx => tx.source_item_id)) :
    ∃ bo d a, k = paycheckKey bo d a := by
  unfold paycheckTxOf at h
  rw [List.map_flatMap] at h
  rcases List.mem_flatMap.1 h with ⟨e, _, hk⟩
  rw [keys_buildPaycheckSplitTransactions] at hk
  rcases List.mem_map.1 hk with ⟨a, _, rfl⟩
  exact ⟨_, _, _, rfl⟩

/-- Every recurring-family key is a recurring key. -/
theorem mem_recurringTx_keys {mId : MonthId} {ms : MonthSetup}
    {items : List RecurringItem} {t : Int} {b : Str} {k : Str}
    (h : k ∈ ((items.filter (fun i => i.enabled)).flatMap
        (fun item => recurringTxFor mId ms item t b)).map
      (fun tx => tx.source_item_id)) :
    ∃ i d, k = recurringKey i d := by
  rw [List.map_flatMap] at h
  rcases List.mem_flatMap.1 h with ⟨i, _, hk⟩
  rw [keys_recurringTxFor] at hk
  rcases List.mem_map.1 hk with ⟨d, _, rfl⟩
  exact ⟨_, _, rfl⟩

/-- Every one-off-family key is a one-off key. -/
theorem mem_oneOffTxOf_keys {ms : MonthSetup} {t : Int} {b : Str} {k : Str}
    (h : k ∈ (oneOffTxOf ms t b).map (fun tx => tx.source_item_id)) :
    ∃ i, k = oneOffKey i := by
  rw [keys_oneOffTxOf] at h
  rcases List.mem_map.1 h with ⟨adj, _, rfl⟩
  exact ⟨_, rfl⟩

/-- Claim C8, amended — the `source_item_id` keys of the transactions emitted
by one generation run are pairwise distinct PROVIDED that: the resolved
paycheck entries have pairwise-distinct (date, bonus-flag) keys and colon-free
dates; the eligible deposit splits target pairwise-distinct accounts; the
recurring item ids are pairwise distinct and colon-free; each recurring item's
generated dates are pairwise distinct; and the one-off ids are pairwise
distinct. The original claim's universal statement is false: two deposit
splits targeting the same account on the same paycheck date collide on the
same key (see the counterexample). -/
theorem generated_source_item_ids_nodup (mId : MonthId) (ms : MonthSetup)
    (items : List RecurringItem) (t : Int) (b : Str)
    (hentries : ((resolvePaycheckEntries mId ms).map
        (fun e => (e.date, optTrue e.is_bonus))).Nodup)
    (hdates : ∀ e ∈ resolvePaycheckEntries mId ms, ':' ∉ e.date)
    (hsplits : ((eligibleSplitsOf ms.paycheck_deposit_splits).map
        (fun s => s.account_id)).Nodup)
    (hids : (items.map (fun i => i.id)).Nodup)
    (hnc : ∀ i ∈ items, ':' ∉ i.id)
    (hitemdates : ∀ i ∈ items, (recurringDatesFor mId i).Nodup)
    (honeoffs : (ms.one_offs.map (fun a => a.id)).Nodup) :
    ((generatedTransactionsOf mId ms items t b).map
      (fun tx => tx.source_item_id)).Nodup := by
  unfold generatedTransactionsOf
  rw [List.map_append, List.map_append, List.nodup_append]
  refine ⟨List.nodup_append.2 ⟨?_, ?_, ?_⟩, ?_, ?_⟩
  · exact paycheckTxOf_keys_nodup mId ms t b hentries hdates hsplits
  · exact recurringTx_keys_nodup mId ms items t b hids hnc hitemdates
  · intro k hk₁ hk₂
    obtain ⟨bo, d, a, rfl⟩ := mem_paycheckTxOf_keys hk₁
    obtain ⟨i, d2, heq⟩ := mem_recurringTx_keys hk₂
    exact paycheckKey_ne_recurringKey bo d a i d2 heq
  · exact oneOffTxOf_keys_nodup ms t b honeoffs
  · intro k hk₁ hk₂
    obtain ⟨j, hj⟩ := mem_oneOffTxOf_keys hk₂
    rcases List.mem_append.1 hk₁ with h | h
    · obtain ⟨bo, d, a, rfl⟩ := mem_paycheckTxOf_keys h
      exact paycheckKey_ne_oneOffKey bo d a j hj
    · obtain ⟨i, d2, rfl⟩ := mem_recurringTx_keys h
      exact recurringKey_ne_oneOffKey i d2 j hj

/-- Month setup with two deposit splits into the same account, for the C8
counterexample. -/
def c8CollideSetup : MonthSetup :=
  { paycheck_schedule := Cadence.monthly,
    paycheck_anchor_date := ⟨2024, 1, 1⟩,
    paycheck_deposit_splits :=
      [⟨strOf "s1", strOf "A", 100, none⟩, ⟨strOf "s2", strOf "A", 200, none⟩],
    paycheck_category_id := strOf "cat",
    paycheck_default_amount := 0,
    paycheck_estimates := some [⟨strOf "2024-01-05", 500, some false, none⟩],
    paycheck_overrides := [],
    variable_overrides := [],
    one_offs := [],
    last_generated_at := 0,
    generation_version := 1 }

/-- Counterexample to claim C8 as stated: with two deposit splits targeting
the same account on the same paycheck date, the run emits two transactions
with the SAME source_item_id — the emitted keys are not pairwise distinct. -/
theorem generated_source_item_ids_collide :
    ¬ (((generateMonthTransactions ⟨2024, 1⟩ c8CollideSetup [] []
        GenerateMode.reset (strOf "b") 0).transactions).map
      (fun tx => tx.source_item_id)).Nodup := by
  decide

/-- Month setup with distinct split accounts, for the C8 witness. -/
def c8GoodSetup : MonthSetup :=
  { paycheck_schedule := Cadence.monthly,
    paycheck_anchor_date := ⟨2024, 1, 1⟩,
    paycheck_deposit_splits :=
      [⟨strOf "s1", strOf "A", 100, none⟩, ⟨strOf "s2", strOf "B", 0, some true⟩],
    paycheck_category_id := strOf "cat",
    paycheck_default_amount := 0,
    paycheck_estimates := some [⟨strOf "2024-01-05", 500, some false, none⟩],
    paycheck_overrides := [],
    variable_overrides := [],
    one_offs := [⟨strOf "o1", strOf "2024-01-10", strOf "fee", 25,
      strOf "A", none, strOf "cat", none, ItemType.expense⟩],
    last_generated_at := 0,
    generation_version := 1 }

/-- Witness for the amended C8: on a setup satisfying all distinctness
hypotheses, the emitted keys are pairwise distinct. -/
theorem generated_source_item_ids_nodup_witness :
    (((resolvePaycheckEntries ⟨2024, 1⟩ c8GoodSetup).map
        (fun e => (e.date, optTrue e.is_bonus))).Nodup
      ∧ ((eligibleSplitsOf c8GoodSetup.paycheck_deposit_splits).map
          (fun s => s.account_id)).Nodup
      ∧ (c8GoodSetup.one_offs.map (fun a => a.id)).Nodup)
    ∧ ((generatedTransactionsOf ⟨2024, 1⟩ c8GoodSetup [] 0 (strOf "b")).map
        (fun tx => tx.source_item_id)).Nodup :=
  ⟨⟨by decide, by decide, by decide⟩,
   generated_source_item_ids_nodup ⟨2024, 1⟩ c8GoodSetup [] 0 (strOf "b")
     (by decide) (by decide) (by decide) (by decide)
     (by intro i hi; exact absurd hi (List.not_mem_nil i))
     (by intro i hi; exact absurd hi (List.not_mem_nil i))
     (by decide)⟩

/-! ### Payroll engine: data model

Source: `src/lib/payroll/types.ts` and the payroll engine module (the
`calculatePayrollForMonth` file). The engine works on dates as `Ymd` triples.
Fields the engine never reads (schema versions, state tables, anchor/category
ids inside the settings) are omitted. The `filingStatus` parameter of the
source's `calculateFederalWithholding` is destructured but never used and is
likewise omitted from its model above. -/

/-- Bonus federal-withholding method. -/
inductive BonusMethod where
  | supplemental_flat
  | regular_annualized
deriving DecidableEq, Repr

/-- One scheduled bonus (`BonusEvent`). -/
structure BonusEvent where
  id : Str
  date : Ymd
  gross_amount : ℚ
  method : BonusMethod
  description : Option Str := none
deriving DecidableEq, Repr

/-- 401(k) contribution mode. -/
inductive ContributionMode where
  | percent
  | fixed_per_paycheck
deriving DecidableEq, Repr

/-- 401(k) settings (`Payroll401kSettings`). -/
structure Payroll401kSettings where
  enabled : Bool
  contribution_mode : ContributionMode
  contribution_value : ℚ
  enforce_annual_max : Bool
  catch_up_enabled : Bool
  catch_up_amount_override : Option ℚ := none
deriving DecidableEq, Repr

/-- Benefit deductions per paycheck (`PayrollBenefitsSettings`). -/
structure PayrollBenefitsSettings where
  pre_tax_benefits_per_paycheck : ℚ
  post_tax_deductions_per_paycheck : ℚ
deriving DecidableEq, Repr

/-- FICA toggles and overrides (`PayrollFicaSettings`). -/
structure PayrollFicaSettings where
  include_fica : Bool
  ss_wage_base_override : Option ℚ := none
  additional_medicare_threshold_override : Option ℚ := none
deriving DecidableEq, Repr

/-- Payroll settings (`PayrollSettings`); the source's `'401k'` field is
spelled `k401` (identifiers cannot start with a digit). -/
structure PayrollSettings where
  tax_year : Int
  filing_status : FilingStatus
  pay_cycle : Cadence
  salary_annual : ℚ
  dependents_count : ℚ
  dependent_credit_override : Option ℚ := none
  other_income_annual : Option ℚ := none
  deductions_annual : Option ℚ := none
  extra_withholding_per_paycheck : Option ℚ := none
  state_withholding_flat_rate : Option ℚ := none
  k401 : Payroll401kSettings
  benefits : PayrollBenefitsSettings
  fica : PayrollFicaSettings
  bonus_events : List BonusEvent
deriving DecidableEq, Repr

/-- Per-dependent credit rule of the tax table. -/
structure DependentCreditRule where
  per_dependent_credit_amount : ℚ
deriving DecidableEq, Repr

/-- The additional-Medicare threshold: a scalar or keyed by filing status. -/
inductive MedicareThreshold where
  | scalar (v : ℚ)
  | byStatus (f : FilingStatus → ℚ)

/-- FICA configuration of the tax table (`FicaConfig`). -/
structure FicaConfig where
  ss_rate : ℚ
  medicare_rate : ℚ
  ss_wage_base : ℚ
  additional_medicare_rate : ℚ
  additional_medicare_threshold : MedicareThreshold

/-- Retirement limits of the tax table (`RetirementLimits`). -/
structure RetirementLimits where
  k401_employee_max : ℚ
  k401_catch_up_max : ℚ
deriving DecidableEq, Repr

/-- The tax table set (`TaxTableSet`), restricted to the fields the engine
reads; per-filing-status records become functions. -/
structure TaxTableSet where
  tax_year : Int
  federal_income_tax_brackets : FilingStatus → List TaxBracket
  standard_deduction : FilingStatus → ℚ
  dependent_credit : DependentCreditRule
  federal_supplemental_withholding_rate : Option ℚ := none
  fica : FicaConfig
  retirement : RetirementLimits

/-- Year-to-date accumulators threaded through the event loop; also the `ytd`
snapshot embedded in each result. -/
structure YtdState where
  gross : ℚ
  taxable_wages : ℚ
  k401_contribution : ℚ
  ss_wages : ℚ
  medicare_wages : ℚ
  federal_withholding : ℚ
  fica_withholding : ℚ
  net : ℚ
deriving DecidableEq, Repr

/-- The all-zero accumulators the engine starts a run with. -/
def ytdZero : YtdState := ⟨0, 0, 0, 0, 0, 0, 0, 0⟩

/-- One paycheck result (`PayrollPaycheckResult`). -/
structure PayrollPaycheckResult where
  id : Str
  date : Ymd
  gross : ℚ
  k401_contribution : ℚ
  pre_tax_benefits : ℚ
  taxable_wages : ℚ
  federal_withholding : ℚ
  state_withholding : ℚ
  ss_withholding : ℚ
  medicare_withholding : ℚ
  additional_medicare_withholding : ℚ
  fica_withholding : ℚ
  post_tax_deductions : ℚ
  net : ℚ
  is_bonus : Bool
  bonus_method : Option BonusMethod := none
  description : Option Str := none
  ytd : YtdState
deriving DecidableEq, Repr

/-- Engine output (`PayrollEngineResult`). -/
structure PayrollEngineResult where
  paychecks : List PayrollPaycheckResult

/-- A pluggable state-withholding strategy
(`StateTaxPlugin`: gross, taxable wages, filing status, date ↦ withholding). -/
def StateTaxPlugin := ℚ → ℚ → FilingStatus → Ymd → ℚ

/-- One pay event of the year-to-date sequence (regular or bonus). -/
structure PayEvent where
  id : Str
  date : Ymd
  is_bonus : Bool
  bonus_method : Option BonusMethod := none
  description : Option Str := none
  gross_override : Option ℚ := none
deriving DecidableEq, Repr

/-! ### Payroll engine: event construction -/

/-- Pay periods per year by schedule (`getPayPeriodsPerYear`). -/
def getPayPeriodsPerYear (schedule : Cadence) : ℚ :=
  match schedule with
  | .weekly => 52
  | .biweekly => 26
  | .semimonthly => 24
  | .monthly => 12

/-- The engine's copy of the monthly-date helper: the anchor's day-of-month
clamped into the month (`getMonthlyDate` of the engine file). -/
def payrollMonthlyDate (mId : MonthId) (day : Nat) : Ymd :=
  ⟨mId.y, mId.m, min (max day 1) (daysInMonth mId.y mId.m)⟩

/-- Pay dates of one month (`getPayDatesForMonth`). -/
def getPayDatesForMonth (mId : MonthId) (schedule : Cadence) (anchorDate : Ymd) :
    List Ymd :=
  match schedule with
  | .weekly => getDatesByInterval mId anchorDate 7 (by omega)
  | .biweekly => getDatesByInterval mId anchorDate 14 (by omega)
  | .semimonthly => [⟨mId.y, mId.m, 15⟩, ⟨mId.y, mId.m, daysInMonth mId.y mId.m⟩]
  | .monthly => [payrollMonthlyDate mId (parseDate anchorDate).d]

/-- Regular pay dates of the months from January through the target month
(`buildYearToDatePayDates`). -/
def buildYearToDatePayDates (mId : MonthId) (schedule : Cadence)
    (anchorDate : Ymd) : List Ymd :=
  ((List.range mId.m).map (fun i => ({ y := mId.y, m := i + 1 } : MonthId))).flatMap
    (fun id => getPayDatesForMonth id schedule anchorDate)

/-- A regular pay event for one date. -/
def mkRegularEvent (date : Ymd) : PayEvent :=
  { id := strOf "regular" ++ ':' :: fmtYmd date, date := date, is_bonus := false }

/-- A bonus pay event. -/
def mkBonusEvent (ev : BonusEvent) : PayEvent :=
  { id := strOf "bonus" ++ ':' :: ev.id, date := ev.date, is_bonus := true,
    bonus_method := some ev.method,
    description := some (jsOrStr (ev.description.getD []) (strOf "Bonus")),
    gross_override := some ev.gross_amount }

/-- Boolean form of the event comparator reporting "not after": date order
first (string compare on canonical dates = `ymdLt`), and on equal dates a
regular event is not after a bonus event. Models "comparator result ≤ 0" of
the sort in `buildPayrollEvents`. -/
def eventLE (a b : PayEvent) : Bool :=
  decide (ymdLt a.date b.date)
    || (decide (a.date = b.date) && (!a.is_bonus || b.is_bonus))

/-- Models `buildPayrollEvents`: regular year-to-date pay dates merged with
the bonus events whose year-month prefix is at most the target month, sorted
by the comparator (stable sort modelled by `mergeSort`). -/
def buildPayrollEvents (mId : MonthId) (schedule : Cadence) (anchorDate : Ymd)
    (bonusEvents : List BonusEvent) : List PayEvent :=
  let payDates := buildYearToDatePayDates mId schedule anchorDate
  let regularEvents := payDates.map mkRegularEvent
  let bonusEventsInRange :=
    (bonusEvents.filter (fun ev => decide (ymLe ev.date mId))).map mkBonusEvent
  (regularEvents ++ bonusEventsInRange).mergeSort eventLE

/-! ### Payroll engine: per-event processing -/

/-- Models `resolveAdditionalMedicareThreshold`. -/
def resolveAdditionalMedicareThreshold (th : MedicareThreshold)
    (fs : FilingStatus) : ℚ :=
  match th with
  | .scalar v => v
  | .byStatus f => f fs

/-- The annual 401(k) cap in force: the table's employee max plus the
catch-up amount (override or table default) when catch-up is enabled
(`k401Max` in `calculatePayrollForMonth`). -/
def k401AnnualMax (settings : PayrollSettings) (tables : TaxTableSet) : ℚ :=
  tables.retirement.k401_employee_max
    + (if settings.k401.catch_up_enabled then
        settings.k401.catch_up_amount_override.getD
          tables.retirement.k401_catch_up_max
      else 0)

/-- The desired 401(k) contribution for a gross amount: percent-of-gross or
fixed (`desired` in `calculatePayrollForMonth`). -/
def k401Desired (settings : PayrollSettings) (gross : ℚ) : ℚ :=
  match settings.k401.contribution_mode with
  | .percent => gross * (settings.k401.contribution_value / 100)
  | .fixed_per_paycheck => settings.k401.contribution_value

/-- Processes one pay event: the body of the `events.forEach` loop of
`calculatePayrollForMonth`, as a function from the incoming year-to-date
state to (result, updated state). -/
def processPayEvent (settings : PayrollSettings) (tables : TaxTableSet)
    (stateWithholding : Option StateTaxPlugin)
    (payPeriodsPerYear grossPerPaycheck : ℚ)
    (st : YtdState) (e : PayEvent) : PayrollPaycheckResult × YtdState :=
  let isBonus := e.is_bonus
  let gross := if isBonus then e.gross_override.getD 0 else grossPerPaycheck
  let k401Contribution :=
    if settings.k401.enabled && !isBonus then
      (if settings.k401.enforce_annual_max then
        min (k401Desired settings gross)
          (max 0 (k401AnnualMax settings tables - st.k401_contribution))
      else k401Desired settings gross)
    else 0
  let preTaxBenefits :=
    if isBonus then 0 else settings.benefits.pre_tax_benefits_per_paycheck
  let taxableWages := max 0 (gross - k401Contribution - preTaxBenefits)
  let extraWithholding :=
    if isBonus then 0 else settings.extra_withholding_per_paycheck.getD 0
  let federalWithholding :=
    if isBonus && decide (e.bonus_method = some BonusMethod.supplemental_flat) then
      taxableWages * (tables.federal_supplemental_withholding_rate.getD 0)
    else
      calculateFederalWithholding taxableWages payPeriodsPerYear
        (tables.standard_deduction settings.filing_status)
        (settings.deductions_annual.getD 0)
        (settings.other_income_annual.getD 0)
        (tables.federal_income_tax_brackets settings.filing_status)
        tables.dependent_credit.per_dependent_credit_amount
        settings.dependents_count
        settings.dependent_credit_override
        extraWithholding
  let ficaParts :=
    if settings.fica.include_fica then
      let ssWageBase := settings.fica.ss_wage_base_override.getD
        tables.fica.ss_wage_base
      let ssTaxable := min gross (max 0 (ssWageBase - st.ss_wages))
      let threshold := settings.fica.additional_medicare_threshold_override.getD
        (resolveAdditionalMedicareThreshold
          tables.fica.additional_medicare_threshold settings.filing_status)
      let medicareAboveThreshold :=
        max 0 (st.medicare_wages + gross - threshold)
          - max 0 (st.medicare_wages - threshold)
      (ssTaxable * tables.fica.ss_rate,
       gross * tables.fica.medicare_rate,
       medicareAboveThreshold * tables.fica.additional_medicare_rate)
    else ((0 : ℚ), (0 : ℚ), (0 : ℚ))
  let ficaWithholding := ficaParts.1 + ficaParts.2.1 + ficaParts.2.2
  let stateW :=
    match stateWithholding with
    | some f => f gross taxableWages settings.filing_status e.date
    | none => taxableWages * ((settings.state_withholding_flat_rate.getD 0) / 100)
  let postTaxDeductions :=
    if isBonus then 0 else settings.benefits.post_tax_deductions_per_paycheck
  let net := gross - k401Contribution - preTaxBenefits - federalWithholding
    - stateW - ficaWithholding - postTaxDeductions
  let st2 : YtdState :=
    { gross := st.gross + gross,
      taxable_wages := st.taxable_wages + taxableWages,
      k401_contribution := st.k401_contribution + k401Contribution,
      ss_wages := st.ss_wages + gross,
      medicare_wages := st.medicare_wages + gross,
      federal_withholding := st.federal_withholding + federalWithholding,
      fica_withholding := st.fica_withholding + ficaWithholding,
      net := st.net + net }
  ({ id := e.id, date := e.date, gross := gross,
     k401_contribution := k401Contribution,
     pre_tax_benefits := preTaxBenefits,
     taxable_wages := taxableWages,
     federal_withholding := federalWithholding,
     state_withholding := stateW,
     ss_withholding := ficaParts.1,
     medicare_withholding := ficaParts.2.1,
     additional_medicare_withholding := ficaParts.2.2,
     fica_withholding := ficaWithholding,
     post_tax_deductions := postTaxDeductions,
     net := net,
     is_bonus := isBonus,
     bonus_method := e.bonus_method,
     description := e.description,
     ytd := st2 }, st2)

/-- Processes a whole event list, collecting every result (the engine then
keeps only the target month's). -/
def runPayrollEvents (settings : PayrollSettings) (tables : TaxTableSet)
    (stateWithholding : Option StateTaxPlugin)
    (payPeriodsPerYear grossPerPaycheck : ℚ)
    (st : YtdState) (events : List PayEvent) :
    List PayrollPaycheckResult × YtdState :=
  events.foldl (fun acc e =>
    let pr := processPayEvent settings tables stateWithholding
      payPeriodsPerYear grossPerPaycheck acc.2 e
    (acc.1 ++ [pr.1], pr.2)) ([], st)

/-- Whether a date lies in the month (`event.date.startsWith(monthId)` on
canonical date strings). -/
def inMonthB (mId : MonthId) (d : Ymd) : Bool :=
  decide (d.y = mId.y ∧ d.m = mId.m)

/-- Models `calculatePayrollForMonth`: process the year-to-date event
sequence in order, threading the accumulators, and return only the results
whose date lies in the target month. -/
def calculatePayrollForMonth (mId : MonthId) (schedule : Cadence)
    (anchorDate : Ymd) (settings : PayrollSettings) (tables : TaxTableSet)
    (stateWithholding : Option StateTaxPlugin) : PayrollEngineResult :=
  let payPeriodsPerYear := getPayPeriodsPerYear schedule
  let grossPerPaycheck := settings.salary_annual / payPeriodsPerYear
  let events := buildPayrollEvents mId schedule anchorDate settings.bonus_events
  { paychecks := (events.foldl (fun acc e =>
      let pr := processPayEvent settings tables stateWithholding
        payPeriodsPerYear grossPerPaycheck acc.2 e
      (if inMonthB mId pr.1.date then acc.1 ++ [pr.1] else acc.1, pr.2))
      ([], ytdZero)).1 }

/-! ### Claim C4: the 401(k) annual cap -/

/-- With 401(k) enabled and annual-max enforcement on, a regular event's
contribution is the desired amount capped by the remaining headroom. -/
theorem processPayEvent_k401_formula {settings : PayrollSettings}
    {tables : TaxTableSet} {plug : Option StateTaxPlugin} {pp gpp : ℚ}
    {st : YtdState} {e : PayEvent}
    (hen : settings.k401.enabled = true)
    (henf : settings.k401.enforce_annual_max = true)
    (hb : e.is_bonus = false) :
    (processPayEvent settings tables plug pp gpp st e).1.k401_contribution
      = min (k401Desired settings gpp)
          (max 0 (k401AnnualMax settings tables - st.k401_contribution)) := by
  simp [processPayEvent, hen, henf, hb]

/-- Bonus events never receive a 401(k) contribution. -/
theorem processPayEvent_k401_bonus {settings : PayrollSettings}
    {tables : TaxTableSet} {plug : Option StateTaxPlugin} {pp gpp : ℚ}
    {st : YtdState} {e : PayEvent} (hb : e.is_bonus = true) :
    (processPayEvent settings tables plug pp gpp st e).1.k401_contribution
      = 0 := by
  simp [processPayEvent, hb]

/-- The updated year-to-date 401(k) figure is the old one plus the event's
contribution. -/
theorem processPayEvent_ytd_k401 (settings : PayrollSettings)
    (tables : TaxTableSet) (plug : Option StateTaxPlugin) (pp gpp : ℚ)
    (st : YtdState) (e : PayEvent) :
    (processPayEvent settings tables plug pp gpp st e).2.k401_contribution
      = st.k401_contribution
        + (processPayEvent settings tables plug pp gpp st e).1.k401_contribution := by
  simp [processPayEvent]

/-- Results carry their event's bonus flag. -/
theorem processPayEvent_is_bonus (settings : PayrollSettings)
    (tables : TaxTableSet) (plug : Option StateTaxPlugin) (pp gpp : ℚ)
    (st : YtdState) (e : PayEvent) :
    (processPayEvent settings tables plug pp gpp st e).1.is_bonus = e.is_bonus := by
  simp [processPayEvent]

/-- With enforcement on and a nonnegative desired amount, contributions are
never negative. -/
theorem processPayEvent_k401_nonneg {settings : PayrollSettings}
    {tables : TaxTableSet} {plug : Option StateTaxPlugin} {pp gpp : ℚ}
    (hen : settings.k401.enabled = true)
    (henf : settings.k401.enforce_annual_max = true)
    (hdes : 0 ≤ k401Desired settings gpp)
    (st : YtdState) (e : PayEvent) :
    0 ≤ (processPayEvent settings tables plug pp gpp st e).1.k401_contribution := by
  cases hb : e.is_bonus with
  | true => rw [processPayEvent_k401_bonus hb]
  | false =>
    rw [processPayEvent_k401_formula hen henf hb]
    exact le_min hdes (le_max_left 0 _)

/-- Splitting a processing fold over an arbitrary starting accumulator. -/
theorem runPayrollEvents_acc (settings : PayrollSettings) (tables : TaxTableSet)
    (plug : Option StateTaxPlugin) (pp gpp : ℚ) :
    ∀ (events : List PayEvent) (acc : List PayrollPaycheckResult) (st : YtdState),
      events.foldl (fun acc e =>
          let pr := processPayEvent settings tables plug pp gpp acc.2 e
          (acc.1 ++ [pr.1], pr.2)) (acc, st)
        = (acc ++ (runPayrollEvents settings tables plug pp gpp st events).1,
           (runPayrollEvents settings tables plug pp gpp st events).2) := by
  intro events
  induction events with
  | nil => intro acc st; simp [runPayrollEvents]
  | cons e evs ih =>
    intro acc st
    unfold runPayrollEvents
    simp only [List.foldl_cons]
    rw [ih, ih]
    simp [runPayrollEvents]

/-- Head decomposition of a processing run. -/
theorem runPayrollEvents_cons (settings : PayrollSettings) (tables : TaxTableSet)
    (plug : Option StateTaxPlugin) (pp gpp : ℚ) (st : YtdState)
    (e : PayEvent) (evs : List PayEvent) :
    runPayrollEvents settings tables plug pp gpp st (e :: evs)
      = ((processPayEvent settings tables plug pp gpp st e).1
            :: (runPayrollEvents settings tables plug pp gpp
              (processPayEvent settings tables plug pp gpp st e).2 evs).1,
         (runPayrollEvents settings tables plug pp gpp
            (processPayEvent settings tables plug pp gpp st e).2 evs).2) := by
  unfold runPayrollEvents
  simp only [List.foldl_cons]
  rw [runPayrollEvents_acc]
  simp [runPayrollEvents]

/-- Claim C4 — the 401(k) annual cap in `calculatePayrollForMonth`'s event
processing: with 401(k) enabled and annual-max enforcement on, (1) every
regular event contributes min(desired, max(0, annualMax − ytd401k)) where
annualMax is the table's employee max plus the enabled catch-up amount
(override or default); (2) the crossing paycheck (headroom positive and not
exceeding desired) contributes exactly annualMax − ytdBefore and lands the
year-to-date figure exactly on annualMax; (3) a paycheck starting at or above
annualMax contributes 0; (4) the year-to-date figure never decreases; and
(5) once the year-to-date figure has reached annualMax, every later regular
paycheck of the run contributes 0. -/
theorem k401_annual_cap (settings : PayrollSettings) (tables : TaxTableSet)
    (plug : Option StateTaxPlugin) (pp gpp : ℚ)
    (hen : settings.k401.enabled = true)
    (henf : settings.k401.enforce_annual_max = true) :
    (∀ (st : YtdState) (e : PayEvent), e.is_bonus = false →
      (processPayEvent settings tables plug pp gpp st e).1.k401_contribution
        = min (k401Desired settings gpp)
            (max 0 (k401AnnualMax settings tables - st.k401_contribution)))
    ∧ (∀ (st : YtdState) (e : PayEvent), e.is_bonus = false →
        st.k401_contribution < k401AnnualMax settings tables →
        k401AnnualMax settings tables - st.k401_contribution
          ≤ k401Desired settings gpp →
        (processPayEvent settings tables plug pp gpp st e).1.k401_contribution
          = k401AnnualMax settings tables - st.k401_contribution
        ∧ (processPayEvent settings tables plug pp gpp st e).2.k401_contribution
          = k401AnnualMax settings tables)
    ∧ (0 ≤ k401Desired settings gpp →
        ∀ (st : YtdState) (e : PayEvent), e.is_bonus = false →
        k401AnnualMax settings tables ≤ st.k401_contribution →
        (processPayEvent settings tables plug pp gpp st e).1.k401_contribution = 0)
    ∧ (0 ≤ k401Desired settings gpp →
        ∀ (st : YtdState) (e : PayEvent),
          st.k401_contribution
            ≤ (processPayEvent settings tables plug pp gpp st e).2.k401_contribution)
    ∧ (0 ≤ k401Desired settings gpp →
        ∀ (events : List PayEvent) (st : YtdState),
          k401AnnualMax settings tables ≤ st.k401_contribution →
          ∀ r ∈ (runPayrollEvents settings tables plug pp gpp st events).1,
            r.is_bonus = false → r.k401_contribution = 0) := by
  have hzero : 0 ≤ k401Desired settings gpp →
      ∀ (st : YtdState) (e : PayEvent), e.is_bonus = false →
      k401AnnualMax settings tables ≤ st.k401_contribution →
      (processPayEvent settings tables plug pp gpp st e).1.k401_contribution = 0 := by
    intro hdes st e hb hcap
    rw [processPayEvent_k401_formula hen henf hb]
    have h1 : max 0 (k401AnnualMax settings tables - st.k401_contribution) = 0 :=
      max_eq_left (by linarith)
    rw [h1]
    exact min_eq_right hdes
  refine ⟨fun st e hb => processPayEvent_k401_formula hen henf hb, ?_, hzero,
    ?_, ?_⟩
  · intro st e hb hlt hle
    have h1 : max 0 (k401AnnualMax settings tables - st.k401_contribution)
        = k401AnnualMax settings tables - st.k401_contribution :=
      max_eq_right (by linarith)
    have hc : (processPayEvent settings tables plug pp gpp st e).1.k401_contribution
        = k401AnnualMax settings tables - st.k401_contribution := by
      rw [processPayEvent_k401_formula hen henf hb, h1]
      exact min_eq_right hle
    refine ⟨hc, ?_⟩
    rw [processPayEvent_ytd_k401, hc]
    ring
  · intro hdes st e
    rw [processPayEvent_ytd_k401]
    have := @processPayEvent_k401_nonneg settings tables plug pp gpp
      hen henf hdes st e
    linarith
  · intro hdes events
    induction events with
    | nil =>
      intro st _ r hr
      simp [runPayrollEvents] at hr
    | cons e evs ih =>
      intro st hcap r hr
      rw [runPayrollEvents_cons] at hr
      rcases List.mem_cons.1 hr with hr | hr
      · intro hrb
        subst hr
        rw [processPayEvent_is_bonus] at hrb
        exact hzero hdes st e hrb hcap
      · have hcap2 : k401AnnualMax settings tables
            ≤ (processPayEvent settings tables plug pp gpp st e).2.k401_contribution := by
          rw [processPayEvent_ytd_k401]
          have := @processPayEvent_k401_nonneg settings tables plug pp gpp
            hen henf hdes st e
          linarith
        exact ih _ hcap2 r hr

/-- Concrete payroll settings for the C4 witness: fixed 60-per-paycheck
contribution with enforcement and no catch-up. -/
def c4Settings : PayrollSettings :=
  { tax_year := 2024, filing_status := FilingStatus.single,
    pay_cycle := Cadence.monthly, salary_annual := 120,
    dependents_count := 0,
    k401 := { enabled := true,
              contribution_mode := ContributionMode.fixed_per_paycheck,
              contribution_value := 60, enforce_annual_max := true,
              catch_up_enabled := false },
    benefits := ⟨0, 0⟩,
    fica := { include_fica := false },
    bonus_events := [] }

/-- Concrete tax tables for the C4 witness: employee max 100, no catch-up. -/
def c4Tables : TaxTableSet :=
  { tax_year := 2024,
    federal_income_tax_brackets := fun _ => [],
    standard_deduction := fun _ => 0,
    dependent_credit := ⟨0⟩,
    fica := ⟨0, 0, 0, 0, MedicareThreshold.scalar 0⟩,
    retirement := ⟨100, 0⟩ }

/-- Year-to-date state with 70 already contributed, for the C4 witness. -/
def c4St : YtdState := ⟨0, 0, 70, 0, 0, 0, 0, 0⟩

/-- A regular pay event, for the C4 witness. -/
def c4Event : PayEvent :=
  { id := strOf "regular:w", date := ⟨2024, 3, 1⟩, is_bonus := false }

/-- Witness for C4: with 70 of a 100 cap already used and 60 desired, the
crossing paycheck contributes exactly 30 and lands the year-to-date figure on
the cap. -/
theorem k401_annual_cap_witness :
    (c4Settings.k401.enabled = true
      ∧ c4Settings.k401.enforce_annual_max = true
      ∧ c4Event.is_bonus = false
      ∧ c4St.k401_contribution < k401AnnualMax c4Settings c4Tables
      ∧ k401AnnualMax c4Settings c4Tables - c4St.k401_contribution
          ≤ k401Desired c4Settings 10)
    ∧ ((processPayEvent c4Settings c4Tables none 12 10 c4St
          c4Event).1.k401_contribution
        = k401AnnualMax c4Settings c4Tables - c4St.k401_contribution
      ∧ (processPayEvent c4Settings c4Tables none 12 10 c4St
          c4Event).2.k401_contribution = k401AnnualMax c4Settings c4Tables) :=
  ⟨⟨rfl, rfl, rfl,
    by norm_num [c4St, k401AnnualMax, c4Settings, c4Tables],
    by norm_num [c4St, k401AnnualMax, k401Desired, c4Settings, c4Tables]⟩,
   (k401_annual_cap c4Settings c4Tables none 12 10 rfl rfl).2.1 c4St c4Event
     rfl (by norm_num [c4St, k401AnnualMax, c4Settings, c4Tables])
     (by norm_num [c4St, k401AnnualMax, k401Desired, c4Settings, c4Tables])⟩

/-! ### Claim C5: structure of the year-to-date event sequence -/

/-- Chronological order on date triples is trichotomous. -/
theorem ymdLt_trichotomy (a b : Ymd) : ymdLt a b ∨ a = b ∨ ymdLt b a := by
  obtain ⟨ay, am, ad⟩ := a
  obtain ⟨cy, cm, cd⟩ := b
  unfold ymdLt
  simp only [Ymd.mk.injEq]
  omega

/-- Chronological order on date triples is transitive. -/
theorem ymdLt_trans {a b c : Ymd} (h1 : ymdLt a b) (h2 : ymdLt b c) :
    ymdLt a c := by
  obtain ⟨ay, am, ad⟩ := a
  obtain ⟨by2, bm, bd⟩ := b
  obtain ⟨cy, cm, cd⟩ := c
  unfold ymdLt at h1 h2 ⊢
  omega

/-- The boolean event comparator, in propositional form: strictly earlier
date, or same date with "regular before bonus". -/
theorem eventLE_iff (a b : PayEvent) :
    eventLE a b = true
      ↔ ymdLt a.date b.date
        ∨ (a.date = b.date ∧ (a.is_bonus = true → b.is_bonus = true)) := by
  unfold eventLE
  cases ha : a.is_bonus <;> cases hb : b.is_bonus <;>
    simp [ha, hb, Bool.or_eq_true, Bool.and_eq_true, decide_eq_true_iff]

/-- The event comparator is transitive. -/
theorem eventLE_trans (a b c : PayEvent)
    (h1 : eventLE a b = true) (h2 : eventLE b c = true) :
    eventLE a c = true := by
  rw [eventLE_iff] at h1 h2 ⊢
  rcases h1 with h1 | ⟨h1e, h1b⟩
  · rcases h2 with h2 | ⟨h2e, _⟩
    · exact Or.inl (ymdLt_trans h1 h2)
    · exact Or.inl (h2e ▸ h1)
  · rcases h2 with h2 | ⟨h2e, h2b⟩
    · exact Or.inl (h1e ▸ h2)
    · exact Or.inr ⟨h1e.trans h2e, fun hx => h2b (h1b hx)⟩

/-- The event comparator is total. -/
theorem eventLE_total (a b : PayEvent) :
    (eventLE a b || eventLE b a) = true := by
  rw [Bool.or_eq_true, eventLE_iff, eventLE_iff]
  rcases ymdLt_trichotomy a.date b.date with h | h | h
  · exact Or.inl (Or.inl h)
  · cases ha : a.is_bonus <;> cases hb : b.is_bonus
    · exact Or.inl (Or.inr ⟨h, by simp⟩)
    · exact Or.inl (Or.inr ⟨h, by simp [hb]⟩)
    · exact Or.inr (Or.inr ⟨h.symm, by simp [ha]⟩)
    · exact Or.inl (Or.inr ⟨h, by simp [hb]⟩)
  · exact Or.inr (Or.inl h)

/-- The engine's conditional fold equals the full run filtered to the target
month. -/
theorem payrollFold_filter (settings : PayrollSettings) (tables : TaxTableSet)
    (plug : Option StateTaxPlugin) (pp gpp : ℚ) (mId : MonthId) :
    ∀ (events : List PayEvent) (st : YtdState)
      (acc : List PayrollPaycheckResult),
      (events.foldl (fun acc e =>
          let pr := processPayEvent settings tables plug pp gpp acc.2 e
          (if inMonthB mId pr.1.date then acc.1 ++ [pr.1] else acc.1, pr.2))
        (acc, st)).1
        = acc ++ ((runPayrollEvents settings tables plug pp gpp st events).1.filter
            (fun r => inMonthB mId r.date)) := by
  intro events
  induction events with
  | nil => intro st acc; simp [runPayrollEvents]
  | cons e evs ih =>
    intro st acc
    simp only [List.foldl_cons]
    rw [ih]
    rw [runPayrollEvents_cons]
    simp only [List.filter_cons]
    cases hm : inMonthB mId
        (processPayEvent settings tables plug pp gpp st e).1.date with
    | true => simp [hm]
    | false => simp [hm]

/-- Claim C5, amended — the event sequence processed into the year-to-date
accumulators by `calculatePayrollForMonth` consists exactly of the regular
pay dates of the months from January of the target year through the target
month, merged with the bonus events whose year-month prefix is at most the
target month — INCLUDING bonus events dated in earlier years, not only the
target year (see the counterexample) — sorted ascending by date with a
regular event placed before a bonus event sharing its date; and the returned
paycheck list is exactly the run's results filtered to dates inside the
target month. -/
theorem buildPayrollEvents_spec (mId : MonthId) (schedule : Cadence)
    (anchorDate : Ymd) (bonusEvents : List BonusEvent)
    (settings : PayrollSettings) (tables : TaxTableSet)
    (plug : Option StateTaxPlugin) :
    (buildPayrollEvents mId schedule anchorDate bonusEvents).Perm
        ((buildYearToDatePayDates mId schedule anchorDate).map mkRegularEvent
          ++ (bonusEvents.filter (fun ev => decide (ymLe ev.date mId))).map
              mkBonusEvent)
    ∧ (buildPayrollEvents mId schedule anchorDate bonusEvents).Pairwise
        (fun x y => ymdLt x.date y.date
          ∨ (x.date = y.date ∧ (x.is_bonus = true → y.is_bonus = true)))
    ∧ (calculatePayrollForMonth mId schedule anchorDate settings tables
          plug).paychecks
        = ((runPayrollEvents settings tables plug (getPayPeriodsPerYear schedule)
            (settings.salary_annual / getPayPeriodsPerYear schedule) ytdZero
            (buildPayrollEvents mId schedule anchorDate
              settings.bonus_events)).1).filter
          (fun r => inMonthB mId r.date) := by
  refine ⟨?_, ?_, ?_⟩
  · unfold buildPayrollEvents
    exact List.mergeSort_perm _ _
  · have hs := @List.sorted_mergeSort _ eventLE eventLE_trans eventLE_total
      ((buildYearToDatePayDates mId schedule anchorDate).map mkRegularEvent
        ++ (bonusEvents.filter (fun ev => decide (ymLe ev.date mId))).map
            mkBonusEvent)
    unfold buildPayrollEvents
    exact hs.imp (fun h => (eventLE_iff _ _).mp h)
  · unfold calculatePayrollForMonth
    dsimp only
    rw [payrollFold_filter]
    simp

/-- Bonus event dated in the previous year, for the C5 counterexample. -/

def c5Bonus : BonusEvent :=
  ⟨strOf "b1", ⟨2023, 5, 1⟩, 1000, BonusMethod.regular_annualized, none⟩

unseal List.merge List.mergeSort in
/-- Counterexample to claim C5 as stated: building the event sequence for
January 2024 with a single bonus dated 2023-05-01 yields that prior-year
bonus as a processed event (first in order), although the claim admits only
events from January 2024 onwards — the code filters bonus events with
`date.slice(0, 7) <= monthId`, which has no lower bound on the year. -/
theorem buildPayrollEvents_includes_prior_year :
    (buildPayrollEvents ⟨2024, 1⟩ Cadence.monthly ⟨2024, 1, 15⟩ [c5Bonus]).map
        (fun e => (e.date, e.is_bonus))
      = [(⟨2023, 5, 1⟩, true), (⟨2024, 1, 15⟩, false)] := by
  decide

/-! ### Forecast simulator: data model

Source: `src/lib/forecasting.ts` (the `calculateForecast` module) and the
account normalization in the application shell (`normalizeAccounts`). The
snapshot is restricted to the fields the simulator reads. The legacy
`credit_card` account type (cast through `any` in the source) is a proper
constructor here. -/

/-- Account type, with the legacy `credit_card` value handled by
`normalizeAccounts`. -/
inductive AccountType where
  | checking
  | savings
  | investment
  | loan
  | credit_card
deriving DecidableEq, Repr

/-- An account (`Account`). -/
structure Account where
  id : Str
  name : Str
  type : AccountType
  included_in_cash_forecast : Bool
  created_at : Int
  updated_at : Int
deriving DecidableEq, Repr

/-- An opening balance entry (`StartingBalance`). -/
structure StartingBalance where
  account_id : Str
  amount : ℚ
deriving DecidableEq, Repr

/-- A month snapshot (`MonthSnapshot`), restricted to the fields
`calculateForecast` reads. -/
structure MonthSnapshot where
  id : MonthId
  accounts : List Account
  transactions : List Transaction
  starting_balances : List StartingBalance

/-- The running balance map (`Record<string, number>`); `none` models a
missing key. -/
def Bal := Str → Option ℚ

/-- Assignment into the balance map. -/
def balUpdate (bal : Bal) (k : Str) (v : ℚ) : Bal :=
  fun k2 => if k2 = k then some v else bal k2

/-- Initial balances: one entry per account, defaulting to 0 when no starting
balance is recorded. -/
def initBalances (accounts : List Account) (sbs : List StartingBalance) : Bal :=
  accounts.foldl (fun bal acc =>
    balUpdate bal acc.id
      (match sbs.find? (fun sb => decide (sb.account_id = acc.id)) with
       | some sb => sb.amount
       | none => 0)) (fun _ => none)

/-- Applies one transaction to the balances: the body of the
`dayTransactions.forEach` loop of `calculateForecast`. A transfer (transfer
type or a truthy `transfer_account_id`, and a truthy destination) moves the
amount's magnitude from the source account to the destination; anything else
adds the signed amount to its account. Missing accounts are untouched. -/
def applyForecastTx (bal : Bal) (tx : Transaction) : Bal :=
  let toId := tx.transfer_account_id.getD []
  if (tx.transaction_type = some ItemType.transfer ∨ toId ≠ []) ∧ toId ≠ [] then
    let amt := |tx.amount|
    let bal1 : Bal :=
      match bal tx.account_id with
      | some v => balUpdate bal tx.account_id (v - amt)
      | none => bal
    match bal1 toId with
    | some v => balUpdate bal1 toId (v + amt)
    | none => bal1
  else
    match bal tx.account_id with
    | some v => balUpdate bal tx.account_id (v + tx.amount)
    | none => bal

/-- The day's cash figure: the sum of balances over accounts flagged for the
cash forecast whose type is not `investment` (`cashAccountsTotal`). -/
def cashAccountsTotal (accounts : List Account) (bal : Bal) : ℚ :=
  ((accounts.filter (fun a =>
      a.included_in_cash_forecast && decide (a.type ≠ AccountType.investment))).map
    (fun a => (bal a.id).getD 0)).sum

/-- One daily snapshot (`ForecastPoint`). -/
structure ForecastPoint where
  date : Str
  balances : Bal
  total_cash : ℚ

/-- Lexicographic strict order on character lists, modelling `localeCompare`
reporting "less" on canonical date strings. -/
def strLtB : Str → Str → Bool
  | [], [] => false
  | [], _ :: _ => true
  | _ :: _, [] => false
  | c1 :: t1, c2 :: t2 => if c1 = c2 then strLtB t1 t2 else decide (c1.val < c2.val)

/-- One day of the simulation: apply the day's transactions, then record a
snapshot of the balances and the cash total. -/
def forecastDay (accounts : List Account) (sortedTx : List Transaction)
    (mId : MonthId) (state : Bal × List ForecastPoint) (day : Nat) :
    Bal × List ForecastPoint :=
  let dateStr := fmtYmd ⟨mId.y, mId.m, day⟩
  let bal2 := (sortedTx.filter (fun tx => decide (tx.date = dateStr))).foldl
    applyForecastTx state.1
  (bal2, state.2 ++ [{ date := dateStr,
                       balances := bal2,
                       total_cash := cashAccountsTotal accounts bal2 }])

/-- Models `calculateForecast`: sort the transactions by date, initialize the
balances, and walk every calendar day of the month in order. -/
def calculateForecast (snapshot : MonthSnapshot) : List ForecastPoint :=
  let sortedTx := snapshot.transactions.mergeSort
    (fun a b => !strLtB b.date a.date)
  let initial := initBalances snapshot.accounts snapshot.starting_balances
  (((List.range (daysInMonth snapshot.id.y snapshot.id.m)).map (fun i => i + 1)).foldl
    (forecastDay snapshot.accounts sortedTx snapshot.id) (initial, [])).2

/-- Models `normalizeAccounts` of the application shell: legacy credit-card
accounts become loans excluded from the cash forecast, investment accounts
are excluded from the cash forecast, everything else passes through
unchanged. -/
def normalizeAccounts (accounts : List Account) : List Account :=
  accounts.map (fun acc =>
    if acc.type = AccountType.credit_card then
      { acc with type := AccountType.loan, included_in_cash_forecast := false }
    else if acc.type = AccountType.investment then
      { acc with included_in_cash_forecast := false }
    else acc)

/-! ### Claim C6: transfer conservation -/

/-- Reading back the assigned key. -/
theorem balUpdate_self (bal : Bal) (k : Str) (v : ℚ) :
    balUpdate bal k v k = some v := by
  simp [balUpdate]

/-- Reading any other key. -/
theorem balUpdate_other {k2 k : Str} (bal : Bal) (v : ℚ) (h : k2 ≠ k) :
    balUpdate bal k v k2 = bal k2 := by
  simp [balUpdate, h]

/-- A balance assignment to a key outside an account list leaves that list's
balance sum unchanged. -/
theorem sum_bal_unchanged :
    ∀ (l : List Account) (bal : Bal) (k : Str) (v : ℚ),
      k ∉ l.map (fun a => a.id) →
      (l.map (fun a => ((balUpdate bal k v) a.id).getD 0)).sum
        = (l.map (fun a => (bal a.id).getD 0)).sum := by
  intro l
  induction l with
  | nil => intro bal k v _; rfl
  | cons a t ih =>
    intro bal k v hk
    simp only [List.map_cons, List.mem_cons, not_or] at hk ⊢
    rw [List.sum_cons, List.sum_cons]
    rw [balUpdate_other bal v (fun h => hk.1 h.symm)]
    rw [ih bal k v hk.2]

/-- A balance assignment to a key held by exactly one account of a
duplicate-free list shifts the balance sum by (new − old). -/
theorem sum_balUpdate_nodup :
    ∀ (l : List Account), (l.map (fun a => a.id)).Nodup →
      ∀ (bal : Bal) (k : Str), k ∈ l.map (fun a => a.id) → ∀ v : ℚ,
      (l.map (fun a => ((balUpdate bal k v) a.id).getD 0)).sum
        = (l.map (fun a => (bal a.id).getD 0)).sum + v - (bal k).getD 0 := by
  intro l
  induction l with
  | nil => intro _ _ _ hk; simp at hk
  | cons a t ih =>
    intro hnd bal k hk v
    simp only [List.map_cons, List.sum_cons]
    rcases List.mem_cons.1 hk with he | ht
    · subst he
      have hnotin : a.id ∉ t.map (fun a => a.id) :=
        (List.nodup_cons.1 (by simpa using hnd)).1
      rw [balUpdate_self]
      rw [sum_bal_unchanged t bal a.id v hnotin]
      simp only [Option.getD_some]
      ring
    · have hhead : a.id ≠ k :=
        fun h => (List.nodup_cons.1 (by simpa using hnd)).1 (h ▸ ht)
      rw [balUpdate_other bal v hhead]
      rw [ih (List.nodup_cons.1 (by simpa using hnd)).2 bal k ht v]
      ring

/-- Updating the balance of a present, cash-eligible account shifts the cash
total by (new − old). -/
theorem cashTotal_balUpdate (accounts : List Account) (bal : Bal) (k : Str)
    (v : ℚ) (hnd : (accounts.map (fun a => a.id)).Nodup)
    (hmem : ∃ a ∈ accounts, a.id = k ∧ a.included_in_cash_forecast = true
      ∧ a.type ≠ AccountType.investment) :
    cashAccountsTotal accounts (balUpdate bal k v)
      = cashAccountsTotal accounts bal + v - (bal k).getD 0 := by
  unfold cashAccountsTotal
  apply sum_balUpdate_nodup
  · exact List.Nodup.sublist ((List.filter_sublist _).map _) hnd
  · rcases hmem with ⟨a, ha, hk, hinc, hty⟩
    exact List.mem_map.2
      ⟨a, List.mem_filter.2 ⟨ha, by simp [hinc, hty]⟩, hk⟩

/-- Claim C6 — applying a transfer transaction (one carrying a truthy
`transfer_account_id`, with or without `transaction_type = transfer`) of
amount X from account A to account B ≠ A inside `calculateForecast`'s
per-transaction step: A's balance drops by |X|, B's balance rises by |X|, and
the day's `total_cash` is unchanged whenever both A and B are accounts of the
snapshot (with duplicate-free ids) that are cash-eligible (flagged for the
cash forecast and not of investment type). -/
theorem forecast_transfer_conservation (bal : Bal) (tx : Transaction)
    (B : Str) (vA vB : ℚ) (accounts : List Account)
    (htid : tx.transfer_account_id = some B)
    (hBne : B ≠ [])
    (hAB : tx.account_id ≠ B)
    (hA : bal tx.account_id = some vA)
    (hB : bal B = some vB) :
    applyForecastTx bal tx tx.account_id = some (vA - |tx.amount|)
    ∧ applyForecastTx bal tx B = some (vB + |tx.amount|)
    ∧ ((accounts.map (fun a => a.id)).Nodup →
        (∃ a ∈ accounts, a.id = tx.account_id ∧ a.included_in_cash_forecast = true
          ∧ a.type ≠ AccountType.investment) →
        (∃ b ∈ accounts, b.id = B ∧ b.included_in_cash_forecast = true
          ∧ b.type ≠ AccountType.investment) →
        cashAccountsTotal accounts (applyForecastTx bal tx)
          = cashAccountsTotal accounts bal) := by
  have happ : applyForecastTx bal tx
      = balUpdate (balUpdate bal tx.account_id (vA - |tx.amount|)) B
          (vB + |tx.amount|) := by
    unfold applyForecastTx
    rw [htid]
    simp only [Option.getD_some]
    rw [if_pos ⟨Or.inr hBne, hBne⟩]
    rw [hA]
    have hB1 : balUpdate bal tx.account_id (vA - |tx.amount|) B = some vB := by
      rw [balUpdate_other bal (vA - |tx.amount|) (Ne.symm hAB)]
      exact hB
    simp only []
    rw [hB1]
  refine ⟨?_, ?_, ?_⟩
  · rw [happ, balUpdate_other _ _ hAB, balUpdate_self]
  · rw [happ, balUpdate_self]
  · intro hnd hmemA hmemB
    rw [happ]
    rw [cashTotal_balUpdate accounts _ B _ hnd hmemB]
    rw [cashTotal_balUpdate accounts bal tx.account_id _ hnd hmemA]
    rw [balUpdate_other bal (vA - |tx.amount|) (Ne.symm hAB)]
    rw [hA, hB]
    simp only [Option.getD_some]
    ring

/-- A checking account used to exercise the transfer conservation theorem. -/
def c6AcctA : Account :=
  { id := strOf "A", name := strOf "Checking", type := AccountType.checking,
    included_in_cash_forecast := true, created_at := 0, updated_at := 0 }

/-- A savings account used to exercise the transfer conservation theorem. -/
def c6AcctB : Account :=
  { id := strOf "B", name := strOf "Savings", type := AccountType.savings,
    included_in_cash_forecast := true, created_at := 0, updated_at := 0 }

/-- A concrete balance map: A holds 50, B holds 20. -/
def c6Bal : Bal :=
  balUpdate (balUpdate (fun _ => none) (strOf "A") 50) (strOf "B") 20

/-- A concrete transfer of magnitude 30 from A to B. -/
def c6Tx : Transaction :=
  { date := strOf "2024-03-05", amount := -30, account_id := strOf "A",
    transfer_account_id := some (strOf "B"),
    category_id := [], description := strOf "move",
    created_at := 0, updated_at := 0 }

/-- Transfer conservation on concrete data: A drops to 20, B rises to 50, the
cash total over both accounts is unchanged. -/
theorem forecast_transfer_conservation_witness :
    applyForecastTx c6Bal c6Tx c6Tx.account_id = some (50 - |c6Tx.amount|)
    ∧ applyForecastTx c6Bal c6Tx (strOf "B") = some (20 + |c6Tx.amount|)
    ∧ cashAccountsTotal [c6AcctA, c6AcctB] (applyForecastTx c6Bal c6Tx)
        = cashAccountsTotal [c6AcctA, c6AcctB] c6Bal := by
  have h := forecast_transfer_conservation c6Bal c6Tx (strOf "B") 50 20
    [c6AcctA, c6AcctB] rfl (by decide) (by decide) rfl rfl
  exact ⟨h.1, h.2.1, h.2.2 (by decide)
    ⟨c6AcctA, List.mem_cons_self _ _, rfl, rfl, by decide⟩
    ⟨c6AcctB, List.mem_cons.2 (Or.inr (List.mem_cons_self _ _)), rfl, rfl,
      by decide⟩⟩

/-! ### Claim C9: loan accounts and the cash total -/

/-- Every snapshot point emitted by the daily fold carries as `total_cash`
exactly `cashAccountsTotal` of its own balances. -/
theorem forecastFold_points (accounts : List Account)
    (sortedTx : List Transaction) (mId : MonthId) :
    ∀ (days : List Nat) (st : Bal × List ForecastPoint),
      (∀ p ∈ st.2, p.total_cash = cashAccountsTotal accounts p.balances) →
      ∀ p ∈ (days.foldl (forecastDay accounts sortedTx mId) st).2,
        p.total_cash = cashAccountsTotal accounts p.balances := by
  intro days
  induction days with
  | nil => intro st h p hp; exact h p hp
  | cons day rest ih =>
    intro st h p hp
    rw [List.foldl_cons] at hp
    refine ih _ ?_ p hp
    intro q hq
    unfold forecastDay at hq
    rcases List.mem_append.1 hq with hql | hqr
    · exact h q hql
    · rcases List.mem_singleton.1 hqr with rfl
      rfl

/-- With no transactions the daily fold leaves the balances untouched and
emits one constant snapshot per day. -/
theorem forecastFold_no_tx (accounts : List Account) (mId : MonthId) :
    ∀ (days : List Nat) (bal : Bal) (pts : List ForecastPoint),
      days.foldl (forecastDay accounts [] mId) (bal, pts)
        = (bal, pts ++ days.map (fun day =>
            { date := fmtYmd ⟨mId.y, mId.m, day⟩,
              balances := bal,
              total_cash := cashAccountsTotal accounts bal })) := by
  intro days
  induction days with
  | nil => intro bal pts; simp
  | cons day rest ih =>
    intro bal pts
    rw [List.foldl_cons]
    show rest.foldl (forecastDay accounts [] mId)
        (forecastDay accounts [] mId (bal, pts) day) = _
    have hstep : forecastDay accounts [] mId (bal, pts) day
        = (bal, pts ++ [{ date := fmtYmd ⟨mId.y, mId.m, day⟩,
                          balances := bal,
                          total_cash := cashAccountsTotal accounts bal }]) := by
      unfold forecastDay
      simp
    rw [hstep, ih]
    simp

/-- Claim C9 (amended) — `total_cash` of every forecast point is the sum of
balances over the accounts whose `included_in_cash_forecast` flag is set and
whose type is not `investment`. Investment accounts and unflagged accounts
contribute nothing, but a loan account with the flag set contributes its full
balance: loans are not excluded by type. `normalizeAccounts` clears the flag
only for legacy credit-card accounts (retyping them as loans) and for
investment accounts; an account already of type `loan` passes through with
its flag intact. -/
theorem forecast_loan_cash_inclusion :
    (∀ (snap : MonthSnapshot), ∀ p ∈ calculateForecast snap,
        p.total_cash = cashAccountsTotal snap.accounts p.balances)
    ∧ (∀ (a : Account) (bal : Bal), a.type = AccountType.investment →
        cashAccountsTotal [a] bal = 0)
    ∧ (∀ (a : Account) (bal : Bal), a.included_in_cash_forecast = false →
        cashAccountsTotal [a] bal = 0)
    ∧ (∀ (a : Account) (bal : Bal), a.type = AccountType.loan →
        a.included_in_cash_forecast = true →
        cashAccountsTotal [a] bal = (bal a.id).getD 0)
    ∧ (∀ (acc : Account), acc.type = AccountType.loan →
        normalizeAccounts [acc] = [acc])
    ∧ (∀ (acc : Account), acc.type = AccountType.credit_card →
        normalizeAccounts [acc]
          = [{ acc with
               type := AccountType.loan,
               included_in_cash_forecast := false }])
    ∧ (∀ (acc : Account), acc.type = AccountType.investment →
        normalizeAccounts [acc]
          = [{ acc with included_in_cash_forecast := false }]) := by
  refine ⟨?_, ?_, ?_, ?_, ?_, ?_, ?_⟩
  · intro snap p hp
    unfold calculateForecast at hp
    exact forecastFold_points snap.accounts _ snap.id _ _
      (by intro q hq; exact absurd hq (List.not_mem_nil q)) p hp
  · intro a bal ha
    simp [cashAccountsTotal, ha]
  · intro a bal ha
    simp [cashAccountsTotal, ha]
  · intro a bal hty hinc
    simp [cashAccountsTotal, hty, hinc]
  · intro acc h
    simp [normalizeAccounts, h]
  · intro acc h
    simp [normalizeAccounts, h]
  · intro acc h
    simp [normalizeAccounts, h]

/-- A loan account flagged for inclusion in the cash forecast. -/
def c9Loan : Account :=
  { id := strOf "L", name := strOf "Car loan", type := AccountType.loan,
    included_in_cash_forecast := true, created_at := 0, updated_at := 0 }

/-- A February 2023 snapshot holding only the flagged loan account, with an
opening balance of 100 and no transactions. -/
def c9Snap : MonthSnapshot :=
  { id := { y := 2023, m := 2 }, accounts := [c9Loan], transactions := [],
    starting_balances := [{ account_id := strOf "L", amount := 100 }] }

/-- Counterexample to Claim C9 as stated: a loan account whose
`included_in_cash_forecast` flag is set is NOT excluded from `total_cash`.
Every one of the 28 forecast points of the loan-only snapshot reports a cash
total of 100 — the loan's balance — rather than 0. -/
theorem forecast_loan_counted_in_cash :
    ((calculateForecast c9Snap).map (fun p => p.total_cash))
      = List.replicate 28 100
    ∧ (100 : ℚ) ≠ 0 ∧ c9Loan.type = AccountType.loan := by
  refine ⟨?_, by norm_num, rfl⟩
  have hct : cashAccountsTotal [c9Loan]
      (initBalances [c9Loan] c9Snap.starting_balances) = 100 := by
    simp [cashAccountsTotal, initBalances, c9Loan, c9Snap, balUpdate]
  unfold calculateForecast
  simp only [c9Snap, List.mergeSort_nil]
  rw [forecastFold_no_tx]
  simp only [List.nil_append, List.map_map]
  refine List.eq_replicate_iff.2 ⟨?_, ?_⟩
  · simp [daysInMonth, isLeapYear]
  · intro b hb
    simp only [List.mem_map, Function.comp] at hb
    obtain ⟨day, _, rfl⟩ := hb
    simpa [c9Snap] using hct

/-- Concrete instance of the amended claim: the flagged loan account's balance
is counted in the cash total, and `normalizeAccounts` leaves the loan account
(and its flag) untouched. -/
theorem forecast_loan_cash_inclusion_witness :
    c9Loan.type = AccountType.loan
    ∧ c9Loan.included_in_cash_forecast = true
    ∧ cashAccountsTotal [c9Loan] (initBalances [c9Loan] c9Snap.starting_balances)
        = ((initBalances [c9Loan] c9Snap.starting_balances) c9Loan.id).getD 0
    ∧ normalizeAccounts [c9Loan] = [c9Loan] :=
  ⟨rfl, rfl,
   forecast_loan_cash_inclusion.2.2.2.1 c9Loan
     (initBalances [c9Loan] c9Snap.starting_balances) rfl rfl,
   forecast_loan_cash_inclusion.2.2.2.2.1 c9Loan rfl⟩
